import Mathlib

/-!
Verification development for the shadow-api resilient fetch orchestration
core.  Each definition is a shallow embedding of a TypeScript function of
the repository; timestamps are modelled as natural-number milliseconds and
every call to the ambient clock is made an explicit argument.  Randomly
drawn quantities (retry jitter) are likewise explicit arguments.
-/

namespace ShadowAPI

/-! ## Error model (src/runtime/errors.ts)

The repository normalizes every failure to an AppError carrying a code, a
message, a retryable flag and a details record.  The retry classifier
inspects the lowercase message with substring probes; those two probes are
embedded as the two boolean fields msgTimeout / msgNetwork.  The codes
SOURCE_QUARANTINED and CIRCUIT_OPEN are raised by classes whose defining
module is not part of the sources at hand; their codes are modelled from
their construction sites in quarantine and circuit-breaker code. -/

inductive AppErrorCode
  | authRequired
  | authInvalid
  | notFound
  | validationError
  | sourceNotSupported
  | operationNotSupported
  | sourceBlocked
  | sourceQuarantined
  | circuitOpen
  | queueBackpressure
  | queueClosed
  | queueTimeout
  | navigationError
  | internalError
  | shuttingDown
  deriving DecidableEq, Repr

/-- Shallow embedding of AppError: `msgTimeout` stands for
`message.toLowerCase().includes("timed out") || includes("timeout")` and
`msgNetwork` for the network-substring probe of classifyRetryCategory. -/
structure AppError where
  code : AppErrorCode
  retryable : Bool
  msgTimeout : Bool
  msgNetwork : Bool
  detailsTag : Nat
  deriving DecidableEq, Repr

/-! ## Adaptive retry policy (src/reliability/resilient-executor.ts, retry-policy part) -/

inductive RetryCategory
  | blocked
  | timeout
  | network
  | circuit
  | validation
  | nonRetryable
  | internal
  deriving DecidableEq, Repr

structure AdaptiveRetryConfig where
  maxAttempts : Nat
  baseDelayMs : Nat
  maxDelayMs : Nat
  blockedDelayMs : Nat
  jitterMs : Nat
  deriving DecidableEq, Repr

structure RetryDecision where
  retry : Bool
  category : RetryCategory
  delayMs : Nat
  deriving DecidableEq, Repr

/-- Port of `const clamp = (value, min, max) => Math.max(min, Math.min(max, value))`. -/
def clamp (value lo hi : Nat) : Nat :=
  max lo (min hi value)

/-- Port of classifyRetryCategory for values that are AppError instances
(every error leaving the executor is one; the plain-Error fallback branch
of the source is unreachable for normalized errors). -/
def classifyRetryCategory (e : AppError) : RetryCategory :=
  if e.code = .sourceBlocked ∨ e.code = .sourceQuarantined then .blocked
  else if e.code = .queueTimeout then .timeout
  else if e.code = .circuitOpen then .circuit
  else if e.code = .validationError then
    if e.msgTimeout then .timeout else .validation
  else if e.code = .internalError then
    if e.msgTimeout then .timeout
    else if e.msgNetwork then .network
    else .internal
  else if e.retryable then .internal
  else .nonRetryable

/-- Port of computeDelay.  `jitter` is the sampled value of
`Math.floor(Math.random() * config.jitterMs)`, hence any natural number
below `config.jitterMs` (and 0 when the window is 0). -/
def computeDelay (config : AdaptiveRetryConfig) (category : RetryCategory)
    (attempt : Nat) (jitter : Nat) : Nat :=
  let exp := max 0 (attempt - 1)
  let base :=
    if category = .blocked then config.blockedDelayMs
    else config.baseDelayMs * 2 ^ exp
  clamp (base + jitter) 0 config.maxDelayMs

def retryableCategory : RetryCategory → Bool
  | .timeout => true
  | .network => true
  | .blocked => true
  | .internal => true
  | _ => false

/-- Port of decideRetry: retry iff the category is retryable and the attempt
counter is below `max(1, maxAttempts)`; a non-retry decision carries delay 0. -/
def decideRetry (config : AdaptiveRetryConfig) (e : AppError)
    (attempt : Nat) (jitter : Nat) : RetryDecision :=
  let category := classifyRetryCategory e
  let maxAttempts := max 1 config.maxAttempts
  let canRetry := decide (attempt < maxAttempts) && retryableCategory category
  { retry := canRetry
    category := category
    delayMs := if canRetry then computeDelay config category attempt jitter else 0 }

/-- Claim-side rendering of C4, word for word: retryable categories are
blocked, timeout, network and internal, only while attempt < maxAttempts;
a blocked retry carries blockedDelayMs plus jitter (no clamp mentioned),
other retryable categories carry the exponential delay clamped to
maxDelayMs; a non-retry decision carries delay 0. -/
def claimedRetryDecision (config : AdaptiveRetryConfig) (e : AppError)
    (attempt : Nat) (jitter : Nat) : RetryDecision :=
  let category := classifyRetryCategory e
  let canRetry := decide (attempt < config.maxAttempts) && retryableCategory category
  { retry := canRetry
    category := category
    delayMs :=
      if canRetry then
        if category = .blocked then config.blockedDelayMs + jitter
        else clamp (config.baseDelayMs * 2 ^ (attempt - 1) + jitter) 0 config.maxDelayMs
      else 0 }

/-- Amended rendering of C4: identical to the claim except that the blocked
delay is clamped to maxDelayMs exactly like the other categories. -/
def amendedRetryDecision (config : AdaptiveRetryConfig) (e : AppError)
    (attempt : Nat) (jitter : Nat) : RetryDecision :=
  let category := classifyRetryCategory e
  let canRetry := decide (attempt < config.maxAttempts) && retryableCategory category
  { retry := canRetry
    category := category
    delayMs :=
      if canRetry then
        if category = .blocked then clamp (config.blockedDelayMs + jitter) 0 config.maxDelayMs
        else clamp (config.baseDelayMs * 2 ^ (attempt - 1) + jitter) 0 config.maxDelayMs
      else 0 }

/-! ## Association-list helpers

The TypeScript components keep their per-key records in Map objects or
arrays; these helpers give Map get / set / delete semantics over
association lists. -/

def lookupA {κ β : Type} [DecidableEq κ] (l : List (κ × β)) (k : κ) : Option β :=
  (l.find? (fun cell => cell.1 = k)).map (fun cell => cell.2)

def setA {κ β : Type} [DecidableEq κ] (l : List (κ × β)) (k : κ) (v : β) :
    List (κ × β) :=
  (k, v) :: l.filter (fun cell => cell.1 ≠ k)

def removeA {κ β : Type} [DecidableEq κ] (l : List (κ × β)) (k : κ) :
    List (κ × β) :=
  l.filter (fun cell => cell.1 ≠ k)

/-- Stable insertion sort used to embed Array.prototype.sort with a
two-valued comparator: `le a b` means the comparator orders `a` not after
`b`; equal elements keep their input order. -/
def insertSorted {α : Type} (le : α → α → Bool) (a : α) : List α → List α
  | [] => [a]
  | b :: l => if le a b then a :: b :: l else b :: insertSorted le a l

def sortByA {α : Type} (le : α → α → Bool) : List α → List α
  | [] => []
  | a :: l => insertSorted le a (sortByA le l)

def isWsChar (c : Char) : Bool := c = ' ' ∨ c = '\t' ∨ c = '\n' ∨ c = '\r'

def asciiLower (c : Char) : Char :=
  if 65 ≤ c.toNat ∧ c.toNat ≤ 90 then Char.ofNat (c.toNat + 32) else c

/-- Port of `source.trim().toLowerCase()`, the normalization applied to
source keys by the circuit breaker, quarantine registry and executor
(ASCII character-level embedding of trim and toLowerCase). -/
def normalizeKey (s : String) : String :=
  String.mk ((((s.data.dropWhile isWsChar).reverse.dropWhile
    isWsChar).reverse).map asciiLower)

/-- Code-point lexicographic order on strings, standing in for the
localeCompare comparator of the source. -/
def charListLe : List Char → List Char → Bool
  | [], _ => true
  | _ :: _, [] => false
  | a :: as, b :: bs =>
      if a.toNat < b.toNat then true
      else if b.toNat < a.toNat then false
      else charListLe as bs

def strLe (a b : String) : Bool := charListLe a.data b.data

/-! ## Response cache (src/performance/response-cache.ts, unnamed part_019)

The memory provider is a Map from keys to envelopes; it is embedded as an
association list with Map.set replace semantics.  `structuredClone` is the
identity on the immutable values of this embedding; the aliasing content of
cloning is treated separately by the heap model further below. -/

structure CacheEnvelope (V : Type) where
  value : V
  writtenAt : Nat
  expiresAt : Nat
  staleUntil : Nat
  deriving DecidableEq, Repr

inductive CacheLookupState
  | miss
  | fresh
  | stale
  deriving DecidableEq, Repr

structure CacheStats where
  lookups : Nat
  hits : Nat
  misses : Nat
  freshHits : Nat
  staleHits : Nat
  writes : Nat
  evictions : Nat
  deriving DecidableEq, Repr

def emptyCacheStats : CacheStats :=
  { lookups := 0, hits := 0, misses := 0, freshHits := 0, staleHits := 0
    writes := 0, evictions := 0 }

structure ResponseCacheConfig where
  ttlMs : Nat
  staleTtlMs : Nat
  staleWhileRevalidate : Bool
  deriving DecidableEq, Repr

abbrev CacheStore (V : Type) := List (String × CacheEnvelope V)

def storeGet {V : Type} (store : CacheStore V) (key : String) :
    Option (CacheEnvelope V) :=
  (store.find? (fun cell => cell.1 = key)).map (fun cell => cell.2)

def storeSet {V : Type} (store : CacheStore V) (key : String)
    (env : CacheEnvelope V) : CacheStore V :=
  (key, env) :: store.filter (fun cell => cell.1 ≠ key)

def storeDelete {V : Type} (store : CacheStore V) (key : String) : CacheStore V :=
  store.filter (fun cell => cell.1 ≠ key)

structure ResponseCacheState (V : Type) where
  store : CacheStore V
  stats : CacheStats
  deriving DecidableEq, Repr

structure CacheLookupResult (V : Type) where
  state : CacheLookupState
  entry : Option (CacheEnvelope V)
  deriving DecidableEq, Repr

/-- Port of ResponseCache.get: classify against `now`, evict lazily when the
entry is past staleUntil.  Returns the lookup plus the updated cache state. -/
def cacheGet {V : Type} (now : Nat) (st : ResponseCacheState V) (key : String) :
    CacheLookupResult V × ResponseCacheState V :=
  let stats0 := { st.stats with lookups := st.stats.lookups + 1 }
  match storeGet st.store key with
  | none =>
      (⟨.miss, none⟩, { st with stats := { stats0 with misses := stats0.misses + 1 } })
  | some entry =>
      if now ≤ entry.expiresAt then
        (⟨.fresh, some entry⟩,
          { st with stats :=
              { stats0 with hits := stats0.hits + 1, freshHits := stats0.freshHits + 1 } })
      else if now ≤ entry.staleUntil then
        (⟨.stale, some entry⟩,
          { st with stats :=
              { stats0 with hits := stats0.hits + 1, staleHits := stats0.staleHits + 1 } })
      else
        (⟨.miss, none⟩,
          { store := storeDelete st.store key
            stats :=
              { stats0 with
                misses := stats0.misses + 1
                evictions := stats0.evictions + 1 } })

/-- Port of ResponseCache.set: wrap the value in an envelope stamped at `now`. -/
def cacheSet {V : Type} (cfg : ResponseCacheConfig) (now : Nat)
    (st : ResponseCacheState V) (key : String) (value : V) : ResponseCacheState V :=
  let envelope : CacheEnvelope V :=
    { value := value, writtenAt := now, expiresAt := now + cfg.ttlMs
      staleUntil := now + cfg.ttlMs + cfg.staleTtlMs }
  { store := storeSet st.store key envelope
    stats := { st.stats with writes := st.stats.writes + 1 } }

/-! ## In-flight deduplicator (src/performance/inflight-dedupe.ts, unnamed part_018)

Promises are identified by the order in which tasks are started; the ghost
counter `nextPromiseId` names them.  `dedupRun` is the synchronous body of
InflightDeduper.run; `dedupSettle` is the `.finally` handler that removes
the registration when the promise settles, fulfilled or rejected. -/

structure DeduperState where
  inflight : List (String × Nat)
  dedupeHits : Nat
  executions : Nat
  nextPromiseId : Nat
  deriving DecidableEq, Repr

def inflightLookup (st : DeduperState) (key : String) : Option Nat :=
  lookupA st.inflight key

/-- Port of InflightDeduper.run: join an outstanding promise for `key` and
mark deduplicated, or start a new task, register it, and count an execution.
Returns (state, promise id, deduped flag). -/
def dedupRun (st : DeduperState) (key : String) : DeduperState × Nat × Bool :=
  match inflightLookup st key with
  | some p => ({ st with dedupeHits := st.dedupeHits + 1 }, p, true)
  | none =>
      let p := st.nextPromiseId
      ({ st with executions := st.executions + 1
                 nextPromiseId := p + 1
                 inflight := (key, p) :: st.inflight }, p, false)

/-- Port of the `.finally` registration removal: `inflight.delete(key)`. -/
def dedupSettle (st : DeduperState) (key : String) : DeduperState :=
  { st with inflight := removeA st.inflight key }

/-! ## Circuit breaker registry (src/reliability/circuit-breaker.ts, inside checkpoint-store.ts) -/

structure CircuitBreakerConfig where
  enabled : Bool
  failureThreshold : Nat
  openMs : Nat
  halfOpenSuccessThreshold : Nat
  deriving DecidableEq, Repr

inductive CircuitState
  | closed
  | opened
  | halfOpen
  deriving DecidableEq, Repr

structure CircuitStateInternal where
  source : String
  state : CircuitState
  consecutiveFailures : Nat
  halfOpenSuccesses : Nat
  openedAt : Option Nat
  openUntil : Option Nat
  lastFailureAt : Option Nat
  lastSuccessAt : Option Nat
  deriving DecidableEq, Repr

/-- Port of `ensure` for an unseen source (the lazily created record). -/
def freshCircuit (key : String) : CircuitStateInternal :=
  { source := key, state := .closed, consecutiveFailures := 0
    halfOpenSuccesses := 0, openedAt := none, openUntil := none
    lastFailureAt := none, lastSuccessAt := none }

/-- Port of the private `open` transition. -/
def openCircuit (cfg : CircuitBreakerConfig) (now : Nat)
    (c : CircuitStateInternal) : CircuitStateInternal :=
  { c with state := .opened, openedAt := some now
           openUntil := some (now + cfg.openMs), halfOpenSuccesses := 0 }

/-- Port of the private `reset` transition. -/
def resetCircuit (c : CircuitStateInternal) : CircuitStateInternal :=
  { c with state := .closed, consecutiveFailures := 0, halfOpenSuccesses := 0
           openedAt := none, openUntil := none }

/-- Port of maybeTransitionFromOpen: once openUntil has passed, an open
circuit becomes half_open with its half-open success counter cleared. -/
def maybeTransitionFromOpen (now : Nat) (c : CircuitStateInternal) :
    CircuitStateInternal :=
  if c.state = .opened then
    match c.openUntil with
    | none => c
    | some u =>
        if now < u then c
        else { c with state := .halfOpen, halfOpenSuccesses := 0 }
  else c

/-- CircuitOpenError as raised by assertCanExecute.  The class itself lives
in a module not present under src; modelled from the spec and its use sites:
code CIRCUIT_OPEN, fail-fast (not retryable). -/
def circuitOpenError : AppError :=
  { code := .circuitOpen, retryable := false, msgTimeout := false
    msgNetwork := false, detailsTag := 0 }

/-- Port of assertCanExecute on the record of one source: run the lazy
open-to-half_open transition, then throw CircuitOpenError iff still open. -/
def assertCanExecuteC (cfg : CircuitBreakerConfig) (now : Nat)
    (c : CircuitStateInternal) : CircuitStateInternal × Option AppError :=
  if cfg.enabled = false then (c, none)
  else
    let c := maybeTransitionFromOpen now c
    if c.state = .opened then (c, some circuitOpenError) else (c, none)

/-- Port of recordSuccess on the record of one source. -/
def recordSuccessC (cfg : CircuitBreakerConfig) (now : Nat)
    (c : CircuitStateInternal) : CircuitStateInternal :=
  if cfg.enabled = false then c
  else
    let c := { c with lastSuccessAt := some now }
    if c.state = .halfOpen then
      let c := { c with halfOpenSuccesses := c.halfOpenSuccesses + 1 }
      if cfg.halfOpenSuccessThreshold ≤ c.halfOpenSuccesses then resetCircuit c else c
    else resetCircuit c

/-- Port of recordFailure on the record of one source: a blocked failure
weighs 2, any failure in half_open reopens, and a weighted consecutive
count at or past the threshold opens. -/
def recordFailureC (cfg : CircuitBreakerConfig) (now : Nat) (blocked : Bool)
    (c : CircuitStateInternal) : CircuitStateInternal :=
  if cfg.enabled = false then c
  else
    let c := { c with lastFailureAt := some now
                      consecutiveFailures :=
                        c.consecutiveFailures + (if blocked then 2 else 1) }
    if c.state = .halfOpen then openCircuit cfg now c
    else if cfg.failureThreshold ≤ c.consecutiveFailures then openCircuit cfg now c
    else c

/-- Weight a blocked failure as 2 and a normal failure as 1 (the claim side
of the weighted-failure sum). -/
def circuitFailWeight (blocked : Bool) : Nat := if blocked then 2 else 1

def weightSum (bs : List Bool) : Nat := (bs.map circuitFailWeight).sum

/-- Fold a sequence of recordFailure calls (oldest first) into a circuit. -/
def foldFailures (cfg : CircuitBreakerConfig) (now : Nat)
    (c : CircuitStateInternal) (bs : List Bool) : CircuitStateInternal :=
  bs.foldl (fun acc b => recordFailureC cfg now b acc) c

/-- Fold `k` consecutive recordSuccess calls into a circuit. -/
def foldSuccesses (cfg : CircuitBreakerConfig) (now : Nat)
    (c : CircuitStateInternal) (k : Nat) : CircuitStateInternal :=
  (List.replicate k ()).foldl (fun acc _ => recordSuccessC cfg now acc) c

/-! ## Quarantine registry (src/reliability/quarantine.ts, inside layout-fallback.ts) -/

structure QuarantineEntry where
  id : String
  reason : String
  untilMs : Nat
  detailsTag : Nat
  atMs : Nat
  deriving DecidableEq, Repr

structure QuarantineState where
  sourceEntries : List (String × QuarantineEntry)
  proxyEntries : List (String × QuarantineEntry)
  deriving DecidableEq, Repr

/-- SourceQuarantinedError as raised by assertSourceReady.  The class lives
in a module not present under src; modelled from the spec and its use
sites: code SOURCE_QUARANTINED, carrying the quarantine expiry in details. -/
def sourceQuarantinedError (untilTag : Nat) : AppError :=
  { code := .sourceQuarantined, retryable := true, msgTimeout := false
    msgNetwork := false, detailsTag := untilTag }

/-- Port of pruneExpired: drop every entry whose `until` has passed. -/
def pruneQuarantine (now : Nat) (q : QuarantineState) : QuarantineState :=
  { sourceEntries := q.sourceEntries.filter (fun cell => ¬ cell.2.untilMs ≤ now)
    proxyEntries := q.proxyEntries.filter (fun cell => ¬ cell.2.untilMs ≤ now) }

/-- Port of assertSourceReady: prune, then throw SourceQuarantinedError iff
a (still active) entry exists for the normalized source. -/
def assertSourceReady (now : Nat) (q : QuarantineState) (source : String) :
    QuarantineState × Option AppError :=
  let q := pruneQuarantine now q
  match lookupA q.sourceEntries (normalizeKey source) with
  | none => (q, none)
  | some entry => (q, some (sourceQuarantinedError entry.untilMs))

/-- Port of quarantineSource. -/
def quarantineSource (now : Nat) (q : QuarantineState) (source reason : String)
    (durationMs detailsTag : Nat) : QuarantineState :=
  let key := normalizeKey source
  let entry : QuarantineEntry :=
    { id := key, reason := reason, untilMs := now + durationMs
      detailsTag := detailsTag, atMs := now }
  { q with sourceEntries := setA q.sourceEntries key entry }

/-- Port of quarantineProxy (the empty-id guard sits at its call site in
this embedding, where the executor only calls it for a selected proxy). -/
def quarantineProxy (now : Nat) (q : QuarantineState) (proxyId reason : String)
    (durationMs detailsTag : Nat) : QuarantineState :=
  let entry : QuarantineEntry :=
    { id := proxyId, reason := reason, untilMs := now + durationMs
      detailsTag := detailsTag, atMs := now }
  { q with proxyEntries := setA q.proxyEntries proxyId entry }

/-! ## Rotating proxy pool (src/reliability/proxy-rotation.ts, inside layout-fallback.ts) -/

structure ProxyState where
  id : String
  url : String
  successes : Nat
  failures : Nat
  blocked : Nat
  lastUsedAt : Option Nat
  quarantinedUntil : Option Nat
  lastError : Option String
  deriving DecidableEq, Repr

structure ProxyRotationConfig where
  enabled : Bool
  quarantineMs : Nat
  deriving DecidableEq, Repr

structure ProxyPoolState where
  proxies : List ProxyState
  deriving DecidableEq, Repr

/-- The least-recently-used, least-failure-heavy comparator of
RotatingProxyPool.next, as a sort predicate. -/
def proxyLe (a b : ProxyState) : Bool :=
  let aUsed := a.lastUsedAt.getD 0
  let bUsed := b.lastUsedAt.getD 0
  if aUsed ≠ bUsed then aUsed < bUsed
  else ((a.failures : Int) - a.successes) ≤ ((b.failures : Int) - b.successes)

def proxyEligible (now : Nat) (p : ProxyState) : Bool :=
  match p.quarantinedUntil with
  | none => true
  | some u => u ≤ now

/-- Port of RotatingProxyPool.next: pick the first eligible proxy in
comparator order, stamp its lastUsedAt, and return its id and url. -/
def proxyNext (cfg : ProxyRotationConfig) (now : Nat) (pool : ProxyPoolState) :
    ProxyPoolState × Option (String × String) :=
  if cfg.enabled = false ∨ pool.proxies = [] then (pool, none)
  else
    let eligible := sortByA proxyLe (pool.proxies.filter (proxyEligible now))
    match eligible with
    | [] => (pool, none)
    | picked :: _ =>
        ({ proxies := pool.proxies.map
            (fun p => if p.id = picked.id then { p with lastUsedAt := some now } else p) },
          some (picked.id, picked.url))

/-- Port of RotatingProxyPool.reportSuccess. -/
def proxyReportSuccess (pool : ProxyPoolState) (proxyId : String) : ProxyPoolState :=
  { proxies := pool.proxies.map
      (fun p => if p.id = proxyId then
          { p with successes := p.successes + 1, lastError := none }
        else p) }

/-- Port of RotatingProxyPool.reportFailure: count the failure, remember the
error, and on a blocked failure also count blocked and quarantine the proxy
inside the pool for quarantineMs. -/
def proxyReportFailure (cfg : ProxyRotationConfig) (now : Nat)
    (pool : ProxyPoolState) (proxyId : String) (blocked : Bool)
    (error : Option String) : ProxyPoolState :=
  { proxies := pool.proxies.map
      (fun p => if p.id = proxyId then
          let p := { p with failures := p.failures + 1
                            lastError := some (error.getD "unknown") }
          if blocked then
            { p with blocked := p.blocked + 1
                     quarantinedUntil := some (now + cfg.quarantineMs) }
          else p
        else p) }

/-! ## Fingerprint rotator (src/reliability/fingerprint-rotation.ts, unnamed part_020)

Profile payloads (user agent, locale, viewport, ...) are opaque to every
modelled consumer; only the id is carried. -/

structure FingerprintProfile where
  id : String
  deriving DecidableEq, Repr

structure ProfileState where
  profile : FingerprintProfile
  uses : Nat
  blocked : Nat
  lastUsedAt : Option Nat
  deriving DecidableEq, Repr

def defaultProfiles : List FingerprintProfile :=
  [⟨"fp_chrome_mac"⟩, ⟨"fp_chrome_win"⟩, ⟨"fp_safari_mac"⟩, ⟨"fp_firefox_linux"⟩]

structure FingerprintState where
  enabled : Bool
  profiles : List ProfileState
  cursor : Nat
  deriving DecidableEq, Repr

def freshProfileState (p : FingerprintProfile) : ProfileState :=
  { profile := p, uses := 0, blocked := 0, lastUsedAt := none }

/-- Port of FingerprintRotator.next: round robin over the profile list;
disabled or empty rotators hand out the first default profile. -/
def fingerprintNext (now : Nat) (st : FingerprintState) :
    FingerprintState × FingerprintProfile :=
  if st.enabled = false ∨ st.profiles = [] then (st, ⟨"fp_chrome_mac"⟩)
  else
    let len := st.profiles.length
    let idx := st.cursor % len
    let picked := (st.profiles.getD idx (freshProfileState ⟨"fp_chrome_mac"⟩)).profile
    let profiles := st.profiles.enum.map
      (fun cell => if cell.1 = idx then
          { cell.2 with uses := cell.2.uses + 1, lastUsedAt := some now }
        else cell.2)
    ({ st with cursor := (st.cursor + 1) % len, profiles := profiles }, picked)

/-- Port of FingerprintRotator.reportBlocked. -/
def fingerprintReportBlocked (st : FingerprintState) (profileId : String) :
    FingerprintState :=
  let profiles := st.profiles.map
    (fun p => if p.profile.id = profileId then { p with blocked := p.blocked + 1 } else p)
  { st with profiles := profiles }

/-! ## Checkpoint store (src/reliability/checkpoint-store.ts)

Stage details records are opaque to every claim; they are carried as a
numeric tag. -/

inductive CheckpointStatus
  | running
  | succeeded
  | failed
  deriving DecidableEq, Repr

structure CheckpointStage where
  stage : String
  atMs : Nat
  detailsTag : Nat
  deriving DecidableEq, Repr

structure CheckpointRecord where
  requestId : String
  source : String
  operation : String
  status : CheckpointStatus
  createdAt : Nat
  updatedAt : Nat
  stages : List CheckpointStage
  errorCode : Option AppErrorCode
  deriving DecidableEq, Repr

structure CheckpointStoreState where
  maxEntries : Nat
  records : List (String × CheckpointRecord)
  deriving DecidableEq, Repr

/-- Port of the private enforceLimit: when over capacity, drop the
oldest-updated records. -/
def checkpointEnforceLimit (st : CheckpointStoreState) : CheckpointStoreState :=
  if st.records.length ≤ st.maxEntries then st
  else
    let ordered := sortByA (fun a b => a.2.updatedAt ≤ b.2.updatedAt) st.records
    let toDelete := ordered.take (st.records.length - st.maxEntries)
    { st with records :=
        st.records.filter (fun cell => ¬ (toDelete.map (fun c => c.1)).contains cell.1) }

/-- Port of CheckpointStore.start. -/
def checkpointStart (now : Nat) (st : CheckpointStoreState)
    (requestId source operation : String) : CheckpointStoreState :=
  let record : CheckpointRecord :=
    { requestId := requestId, source := source, operation := operation
      status := .running, createdAt := now, updatedAt := now
      stages := [], errorCode := none }
  checkpointEnforceLimit { st with records := setA st.records requestId record }

/-- Port of CheckpointStore.stage. -/
def checkpointStage (now : Nat) (st : CheckpointStoreState)
    (requestId stage : String) (detailsTag : Nat) : CheckpointStoreState :=
  match lookupA st.records requestId with
  | none => st
  | some record =>
      let record := { record with updatedAt := now
                                  stages := record.stages ++ [⟨stage, now, detailsTag⟩] }
      { st with records := setA st.records requestId record }

/-- Port of CheckpointStore.succeed (always called with details here). -/
def checkpointSucceed (now : Nat) (st : CheckpointStoreState)
    (requestId : String) (detailsTag : Nat) : CheckpointStoreState :=
  match lookupA st.records requestId with
  | none => st
  | some record =>
      let record := { record with status := CheckpointStatus.succeeded, updatedAt := now
                                  stages := record.stages ++ [⟨"completed", now, detailsTag⟩] }
      { st with records := setA st.records requestId record }

/-- Port of CheckpointStore.fail. -/
def checkpointFail (now : Nat) (st : CheckpointStoreState)
    (requestId : String) (errorCode : AppErrorCode) (detailsTag : Nat) :
    CheckpointStoreState :=
  match lookupA st.records requestId with
  | none => st
  | some record =>
      let record := { record with status := CheckpointStatus.failed, updatedAt := now
                                  errorCode := some errorCode
                                  stages := record.stages ++ [⟨"failed", now, detailsTag⟩] }
      { st with records := setA st.records requestId record }

/-! ## Incident reporter (src/reliability/incident-reporter.ts)

Webhook delivery is an external best-effort side effect without state; it
is not modelled.  Incident ids are drawn from a ghost counter. -/

inductive IncidentLevel
  | warning
  | critical
  deriving DecidableEq, Repr

structure IncidentEvent where
  seq : Nat
  level : IncidentLevel
  kind : String
  source : String
  detailsTag : Nat
  timestamp : Nat
  deriving DecidableEq, Repr

structure IncidentReporterConfig where
  blockedSpikeThreshold : Nat
  blockedSpikeWindowMs : Nat
  maxRecentEvents : Nat
  deriving DecidableEq, Repr

structure IncidentReporterState where
  blockedMarkers : List (String × Nat)
  events : List IncidentEvent
  nextSeq : Nat
  deriving DecidableEq, Repr

/-- Port of pruneBlockedMarkers: shift markers older than the window off
the front of the list. -/
def pruneBlockedMarkers (cfg : IncidentReporterConfig) (now : Nat)
    (st : IncidentReporterState) : IncidentReporterState :=
  let cutoff := now - cfg.blockedSpikeWindowMs
  { st with blockedMarkers := st.blockedMarkers.dropWhile (fun m => m.2 < cutoff) }

/-- Port of the private emit: append the event and cap the buffer at
5 * maxRecentEvents by dropping the oldest. -/
def incidentEmit (cfg : IncidentReporterConfig) (now : Nat)
    (st : IncidentReporterState) (level : IncidentLevel) (kind source : String)
    (detailsTag : Nat) : IncidentReporterState :=
  let events := st.events ++
    [{ seq := st.nextSeq, level := level, kind := kind, source := source
       detailsTag := detailsTag, timestamp := now }]
  let cap := cfg.maxRecentEvents * 5
  let events := if cap < events.length then events.drop (events.length - cap) else events
  { st with events := events, nextSeq := st.nextSeq + 1 }

/-- Port of reportBlocked: record a marker, prune the window, and emit a
critical blocked_spike incident when the per-source count reaches the
threshold. -/
def incidentReportBlocked (cfg : IncidentReporterConfig) (now : Nat)
    (st : IncidentReporterState) (source : String) (detailsTag : Nat) :
    IncidentReporterState :=
  let st := { st with blockedMarkers := st.blockedMarkers ++ [(source, now)] }
  let st := pruneBlockedMarkers cfg now st
  let recentCount := (st.blockedMarkers.filter (fun m => m.1 = source)).length
  if cfg.blockedSpikeThreshold ≤ recentCount then
    incidentEmit cfg now st .critical "blocked_spike" source detailsTag
  else st

/-! ## JSON values, fetch requests and the canonical fingerprint
(src/performance/response-cache.ts, unnamed part_019)

Target maps (`Record<string, unknown>`) are JSON values.  The stable
serialization sorts object keys exactly as the source does; string
escaping inside the rendered JSON is omitted, and the final sha1 hex
digest is abstracted by the identity injection — every claim uses only
that identical normalized requests produce identical keys, which holds of
the source both before and after hashing. -/

inductive Json where
  | null
  | bool (b : Bool)
  | num (n : Int)
  | str (s : String)
  | arrNil
  | arrCons (head : Json) (tail : Json)
  | objNil
  | objCons (key : String) (value : Json) (tail : Json)
  deriving DecidableEq, Repr

/-- Build a JSON object from a field list (arrays and objects are encoded
as constructor chains to keep the inductive type plain). -/
def Json.objOf : List (String × Json) → Json
  | [] => .objNil
  | (k, v) :: rest => .objCons k v (Json.objOf rest)

def Json.arrOf : List Json → Json
  | [] => .arrNil
  | j :: rest => .arrCons j (Json.arrOf rest)

def Json.objPairs : Json → List (String × Json)
  | .objCons k v t => (k, v) :: t.objPairs
  | _ => []

def Json.arrItems : Json → List Json
  | .arrCons h t => h :: t.arrItems
  | _ => []

def jsonQuote (s : String) : String := "\"" ++ s ++ "\""

/-- Fuel-indexed port of stableJson; the fuel is a structural-recursion
bound and `stableJson` instantiates it with a size that always suffices. -/
def stableJsonF : Nat → Json → String
  | 0, _ => ""
  | _ + 1, .null => "null"
  | _ + 1, .bool b => if b then "true" else "false"
  | _ + 1, .num n => toString n
  | _ + 1, .str s => jsonQuote s
  | _ + 1, .arrNil => "[]"
  | fuel + 1, .arrCons h t =>
      "[" ++ String.intercalate ","
        ((Json.arrCons h t).arrItems.map (stableJsonF fuel)) ++ "]"
  | _ + 1, .objNil => "\x7b\x7d"
  | fuel + 1, .objCons k v t =>
      let sorted := sortByA (fun a b => strLe a.1 b.1) (Json.objCons k v t).objPairs
      "\x7b" ++
        String.intercalate ","
          (sorted.map (fun cell => jsonQuote cell.1 ++ ":" ++ stableJsonF fuel cell.2)) ++
        "\x7d"

def Json.size : Json → Nat
  | .arrCons h t => 1 + h.size + t.size
  | .objCons _ v t => 1 + v.size + t.size
  | _ => 1

def stableJson (j : Json) : String := stableJsonF j.size j

/-- Abstraction of the sha1 hex digest (see the section comment). -/
def sha1Hex (s : String) : String := s

inductive CacheMode
  | default
  | bypass
  | refresh
  deriving DecidableEq, Repr

/-- FetchRequestInput as consumed by the pipeline and executor.  The
defining types module is not part of the sources at hand; the fields are
taken from their uses in fetch-pipeline.ts, response-cache.ts and
resilient-executor.ts. -/
structure FetchRequestInput where
  source : String
  operation : String
  target : Json
  fields : Option (List String)
  freshness : Option String
  timeoutMs : Option Nat
  fastMode : Option Bool
  cacheMode : Option CacheMode
  deriving DecidableEq, Repr

/-- Port of buildFetchCacheKey: canonical fingerprint of the normalized
request. -/
def buildFetchCacheKey (request : FetchRequestInput) : String :=
  let normalized : Json := Json.objOf
    [ ("source", .str (normalizeKey request.source))
    , ("operation", .str (normalizeKey request.operation))
    , ("target", request.target)
    , ("fields", Json.arrOf ((sortByA strLe
        (request.fields.getD [])).map Json.str))
    , ("freshness", .str (request.freshness.getD "hot"))
    , ("fast_mode", .bool (request.fastMode.getD false)) ]
  "fetch:" ++ sha1Hex (stableJson normalized)

/-! ## Extraction results (src/extraction/types, modelled from use sites)

The defining module of the extended ExtractionResult (the one carrying
cache and performance metadata) is not part of the sources at hand; its
shape is taken from its producers and consumers in fetch-pipeline.ts and
resilient-executor.ts.  Payload fields that no modelled component inspects
(data, raw, selector traces, pagination, challenge, adapter version) are
carried opaquely in `payload`. -/

structure CacheMeta where
  provider : String
  key : String
  hit : Bool
  state : String
  staleWhileRevalidate : Bool
  revalidating : Bool
  ttlMs : Nat
  staleTtlMs : Nat
  deriving DecidableEq, Repr

structure PerfMeta where
  deduped : Bool
  fastMode : Bool
  retryAttempt : Option Nat
  proxyId : Option String
  fingerprintId : Option String
  benchmarkTag : Option String
  deriving DecidableEq, Repr

structure ExtractionResult where
  payload : Json
  warnings : List String
  latencyMs : Nat
  stageLatencyMs : List (String × Nat)
  cache : Option CacheMeta
  performance : Option PerfMeta
  fetchedAt : Nat
  deriving DecidableEq, Repr

/-- Object-spread update of a string-keyed record: every key of `b`
overrides the same key of `a`. -/
def spreadA (a b : List (String × Nat)) : List (String × Nat) :=
  b.foldl (fun acc cell => setA acc cell.1 cell.2) a

/-- Port of structuredClone for the immutable values of this embedding;
the aliasing content of cloning is treated by the heap model below. -/
def clone (r : ExtractionResult) : ExtractionResult := r

/-! ## Dead-letter queue (src/reliability/dead-letter-queue.ts, retention variant)

Ids are `dlq_<timestamp>_<random>` strings; they are embedded as a
timestamp plus a nonce, with parseTimestamp reading the timestamp
component.  The durable key-value store and the in-memory mirror are
association lists; `pushCount` is a ghost counter of successful pushes. -/

structure DeadLetterId where
  ts : Nat
  nonce : Nat
  deriving DecidableEq, Repr

structure DeadLetterContext where
  requestId : String
  proxyId : Option String
  fingerprintId : String
  deriving DecidableEq, Repr

structure DeadLetterEntry where
  id : DeadLetterId
  createdAt : Nat
  source : String
  operation : String
  request : FetchRequestInput
  error : AppError
  context : DeadLetterContext
  deriving DecidableEq, Repr

structure DeadLetterQueueConfig where
  enabled : Bool
  maxEntries : Nat
  retentionMs : Nat
  deriving DecidableEq, Repr

structure DlqState where
  storeReady : Bool
  index : List DeadLetterId
  store : List (DeadLetterId × DeadLetterEntry)
  entries : List (DeadLetterId × DeadLetterEntry)
  pushCount : Nat
  deriving DecidableEq, Repr

/-- Port of parseTimestamp: the id always carries its timestamp here; the
JS truthiness guard maps to the timestamp being nonzero. -/
def dlqExpired (cfg : DeadLetterQueueConfig) (now : Nat) (id : DeadLetterId) : Bool :=
  id.ts ≠ 0 && id.ts + cfg.retentionMs < now

/-- Port of pruneExpired: under a positive retention, drop index entries
older than the retention age and delete their payloads. -/
def dlqPruneExpired (cfg : DeadLetterQueueConfig) (now : Nat) (st : DlqState) :
    DlqState :=
  if cfg.enabled = false ∨ st.storeReady = false then st
  else if cfg.retentionMs = 0 then st
  else
    let expired := st.index.filter (dlqExpired cfg now)
    let keep := st.index.filter (fun id => ¬ dlqExpired cfg now id)
    { st with index := keep
              store := st.store.filter (fun cell => ¬ expired.contains cell.1)
              entries := st.entries.filter (fun cell => ¬ expired.contains cell.1) }

/-- The `while (index.length > maxEntries)` eviction loop of push: pop the
oldest id off the back of the index and delete its persisted payload and
mirror entry.  Structural recursion on an explicit bound instantiated with
the index length. -/
def dlqEvictLoop (maxEntries : Nat) :
    Nat → List DeadLetterId → List (DeadLetterId × DeadLetterEntry) →
    List (DeadLetterId × DeadLetterEntry) →
    List DeadLetterId × List (DeadLetterId × DeadLetterEntry) ×
      List (DeadLetterId × DeadLetterEntry)
  | 0, index, store, entries => (index, store, entries)
  | fuel + 1, index, store, entries =>
      if index.length ≤ maxEntries then (index, store, entries)
      else
        match index.getLast? with
        | none => (index, store, entries)
        | some removed =>
            dlqEvictLoop maxEntries fuel index.dropLast
              (removeA store removed) (removeA entries removed)

/-- Port of DeadLetterQueue.push.  `now` is the clock and `nonce` the
random id component; returns the created record, or none when the queue is
disabled or the store is not initialized. -/
def dlqPush (cfg : DeadLetterQueueConfig) (now nonce : Nat) (st : DlqState)
    (source operation : String) (request : FetchRequestInput) (error : AppError)
    (context : DeadLetterContext) : DlqState × Option DeadLetterEntry :=
  if cfg.enabled = false ∨ st.storeReady = false then (st, none)
  else
    let st := dlqPruneExpired cfg now st
    let id : DeadLetterId := { ts := now, nonce := nonce }
    let record : DeadLetterEntry :=
      { id := id, createdAt := now, source := source, operation := operation
        request := request, error := error, context := context }
    let store := setA st.store id record
    let index := id :: st.index
    let entries := setA st.entries id record
    let out := dlqEvictLoop cfg.maxEntries index.length index store entries
    ({ st with index := out.1, store := out.2.1, entries := out.2.2
               pushCount := st.pushCount + 1 },
      some record)

/-! ## Fetch-pipeline request normalization and result decoration
(src/performance/fetch-pipeline.ts, inside cache-provider.ts) -/

structure FetchPipelineConfig where
  fastModeEnabled : Bool
  fastModeMaxFields : Nat
  cacheCfg : ResponseCacheConfig
  deriving DecidableEq, Repr

/-- Port of defaultFastFields. -/
def defaultFastFields (source operation : String) : List String :=
  let key := normalizeKey source ++ ":" ++ normalizeKey operation
  if key = "linkedin:profile" then ["full_name", "headline", "location"]
  else if key = "x:profile" then ["display_name", "handle", "follower_count"]
  else if key = "discord:server_metadata" then
    ["server_name", "member_count", "online_count"]
  else []

/-- Port of readBenchmarkTag. -/
def readBenchmarkTag (target : Json) : Option String :=
  match lookupA target.objPairs "benchmarkTag" with
  | some (.str s) => if s.trim.length ≠ 0 then some s.trim else none
  | _ => none

structure NormalizedRequest where
  request : FetchRequestInput
  fastMode : Bool
  trimmedByFastMode : Bool
  deriving DecidableEq, Repr

/-- Port of FetchPipeline.normalizeRequest: outside fast mode only default
the cache mode; in fast mode substitute the per-(source, operation)
default field set when none was given and truncate past the configured
maximum, recording the trim. -/
def normalizeRequest (cfg : FetchPipelineConfig) (input : FetchRequestInput) :
    NormalizedRequest :=
  let fastMode := cfg.fastModeEnabled && input.fastMode.getD false
  if fastMode = false then
    { request := { input with cacheMode := some (input.cacheMode.getD .default) }
      fastMode := false
      trimmedByFastMode := false }
  else
    let maxF := cfg.fastModeMaxFields
    let currentFields := input.fields.getD []
    let fields :=
      if currentFields.length = 0 then
        let defaults := defaultFastFields input.source input.operation
        if defaults.length ≠ 0 then defaults else currentFields
      else currentFields
    let trimmed := decide (maxF < fields.length)
    let fields := if maxF < fields.length then fields.take maxF else fields
    { request := { input with fields := some fields
                              fastMode := some true
                              cacheMode := some (input.cacheMode.getD .default) }
      fastMode := true
      trimmedByFastMode := trimmed }

/-- Port of decorateCachedResult (cache hits, fresh or stale). -/
def decorateCachedResult (cfg : FetchPipelineConfig) (result : ExtractionResult)
    (normalized : NormalizedRequest) (cacheKey : String) (cacheState : String)
    (swr revalidating : Bool) (startedAt now : Nat)
    (pipelineStages : List (String × Nat)) : ExtractionResult :=
  let total := now - startedAt
  let stageLatencyMs :=
    setA (spreadA result.stageLatencyMs pipelineStages) "pipeline_total_ms" total
  let warnings :=
    if normalized.trimmedByFastMode then
      result.warnings ++ ["fast_mode_fields_trimmed"]
    else result.warnings
  let perfBase := result.performance.getD
    { deduped := false, fastMode := false, retryAttempt := none
      proxyId := none, fingerprintId := none, benchmarkTag := none }
  { result with
    warnings := warnings
    latencyMs := total
    stageLatencyMs := stageLatencyMs
    cache := some
      { provider := "memory", key := cacheKey, hit := true, state := cacheState
        staleWhileRevalidate := swr, revalidating := revalidating
        ttlMs := cfg.cacheCfg.ttlMs, staleTtlMs := cfg.cacheCfg.staleTtlMs }
    performance := some
      { perfBase with
        deduped := false
        fastMode := normalized.fastMode
        benchmarkTag := readBenchmarkTag normalized.request.target }
    fetchedAt := now }

/-- Port of decorateExtractedResult (the executed, non-hit path). -/
def decorateExtractedResult (cfg : FetchPipelineConfig) (result : ExtractionResult)
    (normalized : NormalizedRequest) (cacheKey : String) (deduped : Bool)
    (swr : Bool) (startedAt now : Nat)
    (pipelineStages : List (String × Nat)) : ExtractionResult :=
  let total := now - startedAt
  let stageLatencyMs :=
    setA (spreadA result.stageLatencyMs pipelineStages) "pipeline_total_ms" total
  let warnings :=
    if normalized.trimmedByFastMode then
      result.warnings ++ ["fast_mode_fields_trimmed"]
    else result.warnings
  let perfBase := result.performance.getD
    { deduped := false, fastMode := false, retryAttempt := none
      proxyId := none, fingerprintId := none, benchmarkTag := none }
  { result with
    warnings := warnings
    latencyMs := total
    stageLatencyMs := stageLatencyMs
    cache := some
      { provider := "memory", key := cacheKey, hit := false, state := "miss"
        staleWhileRevalidate := swr, revalidating := false
        ttlMs := cfg.cacheCfg.ttlMs, staleTtlMs := cfg.cacheCfg.staleTtlMs }
    performance := some
      { perfBase with
        deduped := deduped
        fastMode := normalized.fastMode
        benchmarkTag := readBenchmarkTag normalized.request.target }
    fetchedAt := now }

/-! ## Resilient executor (src/reliability/resilient-executor.ts)

The Extractor collaborator is external to the core; it is embedded as an
oracle mapping the invocation counter to an outcome.  The ambient clock is
an oracle from the attempt number to the time at which that attempt runs,
and likewise for jitter draws.  The identity-hint enrichment of the target
(`__reliability`) only feeds the Extractor, which is the oracle here, so
the enriched request is not materialized. -/

structure ResilientExecutorConfig where
  retryConfig : AdaptiveRetryConfig
  circuitCfg : CircuitBreakerConfig
  proxyCfg : ProxyRotationConfig
  incidentCfg : IncidentReporterConfig
  dlqCfg : DeadLetterQueueConfig
  sourceQuarantineMs : Nat
  proxyQuarantineMs : Nat
  deriving DecidableEq, Repr

structure ExecutorState where
  circuits : List (String × CircuitStateInternal)
  quarantine : QuarantineState
  proxyPool : ProxyPoolState
  fingerprints : FingerprintState
  checkpoints : CheckpointStoreState
  dlq : DlqState
  incidents : IncidentReporterState
  extractorCalls : Nat
  deriving DecidableEq, Repr

/-- Registry-level assertCanExecute: no record is touched when the breaker
is disabled; otherwise the record for the normalized source is created
lazily and checked. -/
def registryAssertCanExecute (cfg : CircuitBreakerConfig) (now : Nat)
    (circuits : List (String × CircuitStateInternal)) (source : String) :
    List (String × CircuitStateInternal) × Option AppError :=
  if cfg.enabled = false then (circuits, none)
  else
    let key := normalizeKey source
    let c := (lookupA circuits key).getD (freshCircuit key)
    let r := assertCanExecuteC cfg now c
    (setA circuits key r.1, r.2)

/-- Registry-level recordSuccess. -/
def registryRecordSuccess (cfg : CircuitBreakerConfig) (now : Nat)
    (circuits : List (String × CircuitStateInternal)) (source : String) :
    List (String × CircuitStateInternal) :=
  if cfg.enabled = false then circuits
  else
    let key := normalizeKey source
    let c := (lookupA circuits key).getD (freshCircuit key)
    setA circuits key (recordSuccessC cfg now c)

/-- Registry-level recordFailure. -/
def registryRecordFailure (cfg : CircuitBreakerConfig) (now : Nat)
    (circuits : List (String × CircuitStateInternal)) (source : String)
    (blocked : Bool) : List (String × CircuitStateInternal) :=
  if cfg.enabled = false then circuits
  else
    let key := normalizeKey source
    let c := (lookupA circuits key).getD (freshCircuit key)
    setA circuits key (recordFailureC cfg now blocked c)

/-- Loop state of one ResilientExecutor.execute call: the registries plus
the currently selected proxy and fingerprint, which are rotated after a
failed attempt. -/
structure ExecLoopState where
  st : ExecutorState
  proxy : Option (String × String)
  fingerprint : FingerprintProfile
  deriving DecidableEq, Repr

set_option maxHeartbeats 1000000 in
/-- Port of the per-attempt body runAttempt.  The try block of the source
wraps only the Extractor call: a quarantine or circuit rejection is thrown
before it, with no failure bookkeeping and no rotation. -/
def runAttempt (ecfg : ResilientExecutorConfig)
    (extractor : Nat → Except AppError ExtractionResult)
    (requestId source operation : String) (request : FetchRequestInput)
    (attempt now : Nat) (ls : ExecLoopState) :
    Except AppError ExtractionResult × ExecLoopState :=
  let st := ls.st
  let ck0 := checkpointStage now st.checkpoints requestId "attempt_start" attempt
  let st := { st with checkpoints := ck0 }
  let qr := assertSourceReady now st.quarantine source
  let st := { st with quarantine := qr.1 }
  match qr.2 with
  | some e => (.error e, { ls with st := st })
  | none =>
    let cr := registryAssertCanExecute ecfg.circuitCfg now st.circuits source
    let st := { st with circuits := cr.1 }
    match cr.2 with
    | some e => (.error e, { ls with st := st })
    | none =>
      let callIdx := st.extractorCalls
      let st := { st with extractorCalls := st.extractorCalls + 1 }
      match extractor callIdx with
      | .ok result =>
          let circuits1 := registryRecordSuccess ecfg.circuitCfg now st.circuits source
          let st := { st with circuits := circuits1 }
          let st :=
            match ls.proxy with
            | some p => { st with proxyPool := proxyReportSuccess st.proxyPool p.1 }
            | none => st
          let ck1 := checkpointStage now st.checkpoints requestId "attempt_success" attempt
          let st := { st with checkpoints := ck1 }
          let perfBase := result.performance.getD
            { deduped := false, fastMode := request.fastMode.getD false
              retryAttempt := none, proxyId := none, fingerprintId := none
              benchmarkTag := none }
          let perf : PerfMeta :=
            { perfBase with retryAttempt := some attempt
                            proxyId := ls.proxy.map (fun p => p.1)
                            fingerprintId := some ls.fingerprint.id }
          let annotated := { result with performance := some perf }
          (.ok annotated, { ls with st := st })
      | .error err =>
          let blocked :=
            err.code = AppErrorCode.sourceBlocked ∨
              err.code = AppErrorCode.sourceQuarantined
          let circuits2 := registryRecordFailure ecfg.circuitCfg now st.circuits source blocked
          let st := { st with circuits := circuits2 }
          let st :=
            match ls.proxy with
            | some p =>
                let pool := proxyReportFailure ecfg.proxyCfg now st.proxyPool p.1 blocked none
                { st with proxyPool := pool }
            | none => st
          let st :=
            if blocked then
              let q1 := quarantineSource now st.quarantine source "blocked-signal"
                ecfg.sourceQuarantineMs attempt
              let st := { st with quarantine := q1 }
              let st :=
                match ls.proxy with
                | some p =>
                    let q2 := quarantineProxy now st.quarantine p.1 "blocked-signal"
                      ecfg.proxyQuarantineMs attempt
                    { st with quarantine := q2 }
                | none => st
              let fp1 := fingerprintReportBlocked st.fingerprints ls.fingerprint.id
              let st := { st with fingerprints := fp1 }
              let inc1 := incidentReportBlocked ecfg.incidentCfg now st.incidents source attempt
              { st with incidents := inc1 }
            else st
          let ck2 := checkpointStage now st.checkpoints requestId "attempt_failure" attempt
          let st := { st with checkpoints := ck2 }
          let pr := proxyNext ecfg.proxyCfg now st.proxyPool
          let st := { st with proxyPool := pr.1 }
          let fr := fingerprintNext now st.fingerprints
          let st := { st with fingerprints := fr.1 }
          (.error err, { st := st, proxy := pr.2, fingerprint := fr.2 })

/-- Port of executeWithAdaptiveRetry specialized to runAttempt, with the
checkpoint-writing onRetry and onFinalFailure hooks inlined.  The fuel is
instantiated with max 1 maxAttempts; retry decisions keep the attempt
counter below that bound, so the fuel never runs out.  The sleep between
attempts is realized by the time oracle. -/
def executeAttempts (ecfg : ResilientExecutorConfig)
    (extractor : Nat → Except AppError ExtractionResult)
    (times jitters : Nat → Nat)
    (requestId source operation : String) (request : FetchRequestInput) :
    Nat → Nat → ExecLoopState → Except AppError ExtractionResult × ExecLoopState × Nat
  | _, 0, ls =>
      (.error { code := .internalError, retryable := false, msgTimeout := false
                msgNetwork := false, detailsTag := 0 }, ls, 0)
  | attempt, fuel + 1, ls =>
      let r := runAttempt ecfg extractor requestId source operation request
        attempt (times attempt) ls
      match r.1 with
      | .ok result => (.ok result, r.2, attempt)
      | .error e =>
          let decision := decideRetry ecfg.retryConfig e attempt (jitters attempt)
          if decision.retry = false then
            let ls := r.2
            let ck3 := checkpointStage (times attempt) ls.st.checkpoints requestId
              "retry_exhausted" attempt
            let ls := { ls with st := { ls.st with checkpoints := ck3 } }
            (.error e, ls, attempt)
          else
            let ls := r.2
            let ck4 := checkpointStage (times attempt) ls.st.checkpoints requestId
              "retry_scheduled" attempt
            let ls := { ls with st := { ls.st with checkpoints := ck4 } }
            executeAttempts ecfg extractor times jitters requestId source operation
              request (attempt + 1) fuel ls

/-- Port of ResilientExecutor.execute: open the checkpoint trace, select the
initial proxy and fingerprint, run the retry loop, and on overall failure
record the checkpoint as failed, push exactly one dead-letter record with
the original request and the final classified error, and emit a dead-letter
incident when the push was persisted.  `dlqNonce` is the random component
of the dead-letter id. -/
def executeResilient (ecfg : ResilientExecutorConfig)
    (extractor : Nat → Except AppError ExtractionResult)
    (times jitters : Nat → Nat) (requestId : String) (dlqNonce : Nat)
    (st0 : ExecutorState) (request : FetchRequestInput) :
    Except AppError ExtractionResult × ExecutorState :=
  let source := normalizeKey request.source
  let operation := normalizeKey request.operation
  let ck5 := checkpointStart (times 0) st0.checkpoints requestId source operation
  let st := { st0 with checkpoints := ck5 }
  let ck6 := checkpointStage (times 0) st.checkpoints requestId "received" 0
  let st := { st with checkpoints := ck6 }
  let pr := proxyNext ecfg.proxyCfg (times 0) st.proxyPool
  let st := { st with proxyPool := pr.1 }
  let fr := fingerprintNext (times 0) st.fingerprints
  let st := { st with fingerprints := fr.1 }
  let ls : ExecLoopState := { st := st, proxy := pr.2, fingerprint := fr.2 }
  let out := executeAttempts ecfg extractor times jitters requestId source
    operation request 1 (max 1 ecfg.retryConfig.maxAttempts) ls
  match out.1 with
  | .ok result =>
      let ls := out.2.1
      let ck7 := checkpointSucceed (times out.2.2) ls.st.checkpoints requestId result.latencyMs
      let st := { ls.st with checkpoints := ck7 }
      (.ok result, st)
  | .error e =>
      let ls := out.2.1
      let finalAt := times out.2.2
      let ck8 := checkpointFail finalAt ls.st.checkpoints requestId e.code 0
      let st := { ls.st with checkpoints := ck8 }
      let pushed := dlqPush ecfg.dlqCfg finalAt dlqNonce st.dlq source operation
        request e
        { requestId := requestId, proxyId := ls.proxy.map (fun p => p.1)
          fingerprintId := ls.fingerprint.id }
      let st := { st with dlq := pushed.1 }
      let st :=
        match pushed.2 with
        | some _ =>
            let inc2 := incidentEmit ecfg.incidentCfg finalAt st.incidents .warning
              "dead_letter" source 0
            { st with incidents := inc2 }
        | none => st
      (.error e, st)

/-! ## Fetch pipeline (src/performance/fetch-pipeline.ts, inside cache-provider.ts)

The pipeline composes the response cache, the deduplicator and the
resilient executor.  `executorCalls` counts the pipeline-level
executor.execute invocations, that is, started dedup tasks.  Latency
fields of the stage records are 0 because the virtual clock does not
advance inside one synchronous segment.  Asynchronous settlement of a
task started by this very call is folded into the call after its return
value is computed; a caller that joins a foreign in-flight promise
receives that promise's outcome through the `joined` oracle. -/

structure PipeState where
  cache : ResponseCacheState ExtractionResult
  deduper : DeduperState
  exec : ExecutorState
  executorCalls : Nat
  deriving DecidableEq, Repr

/-- The shared execute path of FetchPipeline.execute (reached on cache
bypass, forced refresh, miss, and stale without stale-while-revalidate):
deduplicate under the (possibly bypass-namespaced) key, run the executor
for a newly started task, write back on success unless bypassing, settle
the registration, and decorate. -/
def pipelineExecutePath (pcfg : FetchPipelineConfig) (ecfg : ResilientExecutorConfig)
    (extractor : Nat → Except AppError ExtractionResult) (times jitters : Nat → Nat)
    (requestId : String) (dlqNonce : Nat) (joined : Except AppError ExtractionResult)
    (now writeAt : Nat) (st : PipeState) (normalized : NormalizedRequest)
    (cacheKey : String) (cacheMode : CacheMode) :
    Except AppError ExtractionResult × PipeState :=
  let shouldWriteCache := cacheMode ≠ CacheMode.bypass
  let dedupeKey := if cacheMode = CacheMode.bypass then "bypass:" ++ cacheKey else cacheKey
  let stages := [("pipeline_cache_lookup_ms", (0 : Nat)), ("pipeline_dedupe_wait_ms", 0)]
  let dr := dedupRun st.deduper dedupeKey
  let st := { st with deduper := dr.1 }
  if dr.2.2 = false then
    let st := { st with executorCalls := st.executorCalls + 1 }
    let er := executeResilient ecfg extractor times jitters requestId dlqNonce
      st.exec normalized.request
    let st := { st with exec := er.2 }
    match er.1 with
    | .ok extracted =>
        let st :=
          if shouldWriteCache then
            { st with cache := cacheSet pcfg.cacheCfg writeAt st.cache cacheKey extracted }
          else st
        let st := { st with deduper := dedupSettle st.deduper dedupeKey }
        (.ok (decorateExtractedResult pcfg (clone extracted) normalized cacheKey false
          (if shouldWriteCache then false else true) now now stages), st)
    | .error e =>
        let st := { st with deduper := dedupSettle st.deduper dedupeKey }
        (.error e, st)
  else
    match joined with
    | .ok extracted =>
        (.ok (decorateExtractedResult pcfg (clone extracted) normalized cacheKey true
          (if shouldWriteCache then false else true) now now stages), st)
    | .error e => (.error e, st)

/-- Port of FetchPipeline.execute (single caller, folded settlement; see
the section comment).  Fresh hits return the cloned cached value without
touching the executor; stale hits under stale-while-revalidate return the
cloned stale value and trigger exactly one background re-execution through
the deduplicator under the same key, whose failure only skips the
write-back and never reaches the returned value. -/
def pipelineExecute (pcfg : FetchPipelineConfig) (ecfg : ResilientExecutorConfig)
    (extractor : Nat → Except AppError ExtractionResult) (times jitters : Nat → Nat)
    (requestId : String) (dlqNonce : Nat) (joined : Except AppError ExtractionResult)
    (now writeAt : Nat) (st : PipeState) (input : FetchRequestInput) :
    Except AppError ExtractionResult × PipeState :=
  let normalized := normalizeRequest pcfg input
  let cacheKey := buildFetchCacheKey normalized.request
  let cacheMode := normalized.request.cacheMode.getD .default
  let stages := [("pipeline_cache_lookup_ms", (0 : Nat))]
  if cacheMode = CacheMode.bypass ∨ cacheMode = CacheMode.refresh then
    pipelineExecutePath pcfg ecfg extractor times jitters requestId dlqNonce joined
      now writeAt st normalized cacheKey cacheMode
  else
    let lr := cacheGet now st.cache cacheKey
    let st := { st with cache := lr.2 }
    match lr.1.state, lr.1.entry with
    | .fresh, some entry =>
        (.ok (decorateCachedResult pcfg (clone entry.value) normalized cacheKey
          "fresh" false false now now stages), st)
    | .stale, some entry =>
        if pcfg.cacheCfg.staleWhileRevalidate then
          let dr := dedupRun st.deduper cacheKey
          let st := { st with deduper := dr.1 }
          let result := decorateCachedResult pcfg (clone entry.value) normalized
            cacheKey "stale" true true now now stages
          let st :=
            if dr.2.2 = false then
              let st := { st with executorCalls := st.executorCalls + 1 }
              let refreshReq :=
                { normalized.request with cacheMode := some CacheMode.refresh }
              let er := executeResilient ecfg extractor times jitters requestId
                dlqNonce st.exec refreshReq
              let st := { st with exec := er.2 }
              let st :=
                match er.1 with
                | .ok refreshed =>
                    { st with cache :=
                        cacheSet pcfg.cacheCfg writeAt st.cache cacheKey refreshed }
                | .error _ => st
              { st with deduper := dedupSettle st.deduper cacheKey }
            else st
          (.ok result, st)
        else
          pipelineExecutePath pcfg ecfg extractor times jitters requestId dlqNonce
            joined now writeAt st normalized cacheKey cacheMode
    | _, _ =>
        pipelineExecutePath pcfg ecfg extractor times jitters requestId dlqNonce
          joined now writeAt st normalized cacheKey cacheMode

/-! ## Concurrent-miss schedule (single-flight scenario)

N callers run FetchPipeline.execute concurrently with the same input
against a cache miss.  On the JS event loop each caller's synchronous
segment performs the cache lookup and then InflightDeduper.run; the sole
cache write happens when the one started task settles.  The phase
functions below are that schedule expressed over the pipeline's
components; the theorems relate them to the same primitives used by
pipelineExecute. -/

/-- Synchronous segment of one miss-path caller: cache lookup (a miss under
the theorems' hypotheses) followed by InflightDeduper.run; a caller that
starts the task invokes executor.execute once. -/
def missCallerPhase1 (pcfg : FetchPipelineConfig) (now : Nat) (st : PipeState)
    (input : FetchRequestInput) : PipeState × Nat × Bool :=
  let normalized := normalizeRequest pcfg input
  let cacheKey := buildFetchCacheKey normalized.request
  let lr := cacheGet now st.cache cacheKey
  let st := { st with cache := lr.2 }
  let dr := dedupRun st.deduper cacheKey
  let st := { st with deduper := dr.1 }
  let st :=
    if dr.2.2 = false then { st with executorCalls := st.executorCalls + 1 } else st
  (st, dr.2)

/-- Run the synchronous segments of `n` concurrent identical callers. -/
def concurrentMissPhase1 (pcfg : FetchPipelineConfig) (now : Nat)
    (input : FetchRequestInput) :
    Nat → PipeState → PipeState × List (Nat × Bool)
  | 0, st => (st, [])
  | n + 1, st =>
      let r := missCallerPhase1 pcfg now st input
      let rest := concurrentMissPhase1 pcfg now input n r.1
      (rest.1, r.2 :: rest.2)

/-- Settlement of the single started task: write the successful value back
to the cache and remove the dedup registration (success or failure). -/
def missSettle (pcfg : FetchPipelineConfig) (writeAt : Nat) (st : PipeState)
    (input : FetchRequestInput) (outcome : Except AppError ExtractionResult) :
    PipeState :=
  let normalized := normalizeRequest pcfg input
  let cacheKey := buildFetchCacheKey normalized.request
  let st :=
    match outcome with
    | .ok extracted =>
        { st with cache := cacheSet pcfg.cacheCfg writeAt st.cache cacheKey extracted }
    | .error _ => st
  { st with deduper := dedupSettle st.deduper cacheKey }

/-- The per-caller decorated result of the shared execution outcome on the
default-mode miss path. -/
def missCallerResult (pcfg : FetchPipelineConfig) (now : Nat)
    (input : FetchRequestInput) (outcome : Except AppError ExtractionResult)
    (deduped : Bool) : Except AppError ExtractionResult :=
  let normalized := normalizeRequest pcfg input
  let cacheKey := buildFetchCacheKey normalized.request
  let stages := [("pipeline_cache_lookup_ms", (0 : Nat)), ("pipeline_dedupe_wait_ms", 0)]
  match outcome with
  | .ok extracted =>
      .ok (decorateExtractedResult pcfg (clone extracted) normalized cacheKey deduped
        false now now stages)
  | .error e => .error e

/-- Forget the per-caller deduplicated marker (used to state that
concurrent callers receive equivalent results). -/
def dropDedupedFlag (r : ExtractionResult) : ExtractionResult :=
  { r with performance := r.performance.map (fun p => { p with deduped := false }) }

/-! ## Request admission queue (src/runtime/request-queue.ts)

`withTimeout` races a task promise against a timer that rejects with
QueueTimeoutError after `timeoutMs`; the model resolves the race by the
task's running duration.  At an exact tie the task's settlement wins; the
claims only use strict overruns, never the boundary.  `runQueueSeq` is the
concurrency-1 event-loop schedule of pump / runTask: each started task
occupies the single slot until its race settles — after min(duration,
timeout) — and only then the next pending task starts. -/

structure RequestQueueConfig where
  concurrency : Nat
  maxSize : Nat
  taskTimeoutMs : Nat
  deriving DecidableEq, Repr

deriving instance DecidableEq for Except

/-- A queued task, described by its running duration and its settlement
outcome (result values are opaque tags). -/
structure QueueTaskSpec where
  durationMs : Nat
  outcome : Except AppError Nat
  deriving DecidableEq, Repr

/-- QueueTimeoutError of src/runtime/errors.ts. -/
def queueTimeoutError : AppError :=
  { code := .queueTimeout, retryable := true, msgTimeout := true
    msgNetwork := false, detailsTag := 0 }

/-- Port of withTimeout: the settled outcome of racing the task against
the timeout timer. -/
def withTimeoutModel (timeoutMs : Nat) (t : QueueTaskSpec) : Except AppError Nat :=
  if t.durationMs ≤ timeoutMs then t.outcome else .error queueTimeoutError

/-- Concurrency-1 schedule: returns, per admitted task in order,
(startAt, settleAt, settled outcome). -/
def runQueueSeq (cfg : RequestQueueConfig) :
    List QueueTaskSpec → Nat → List (Nat × Nat × Except AppError Nat)
  | [], _ => []
  | t :: rest, clock =>
      let settleAt := clock + min t.durationMs cfg.taskTimeoutMs
      (clock, settleAt, withTimeoutModel cfg.taskTimeoutMs t) ::
        runQueueSeq cfg rest settleAt

/-! ## Heap model of structuredClone (the aliasing content of cloning)

ResponseCache.set stores `structuredClone(value)`, ResponseCache.get
returns a clone of the stored envelope, and the pipeline clones the shared
dedup result per caller.  To state what cloning buys, object values are
placed on an explicit heap: addresses point at nodes, a node is a number
or an object whose children are addresses.  Well-formed heaps allocate
bottom-up (children strictly below their parent, everything below `next`),
which is how both the mutation-free construction of extraction results and
`cloneAddrF` allocate.  `writeNum` is an in-place field mutation at an
existing address. -/

inductive HeapNode where
  | num (n : Int)
  | obj (children : List Nat)
  deriving DecidableEq, Repr

def HeapNode.children : HeapNode → List Nat
  | .num _ => []
  | .obj cs => cs

structure Heap where
  cells : List (Nat × HeapNode)
  next : Nat
  deriving DecidableEq, Repr

def Heap.lookup (h : Heap) (a : Nat) : Option HeapNode := lookupA h.cells a

def heapWF (h : Heap) : Prop :=
  ∀ cell ∈ h.cells, cell.1 < h.next ∧ ∀ c ∈ cell.2.children, c < cell.1

/-- In-place mutation: overwrite the node at address `a` with a number. -/
def writeNum (h : Heap) (a : Nat) (n : Int) : Heap :=
  { h with cells := h.cells.map (fun cell => if cell.1 = a then (a, .num n) else cell) }

/-- Pure value trees, the observations of heap reads (object children are
encoded as a constructor chain to keep the inductive type plain). -/
inductive Tree where
  | num (n : Int)
  | objNil
  | objCons (head : Tree) (tail : Tree)
  deriving DecidableEq, Repr

def Tree.objOf : List Tree → Tree
  | [] => .objNil
  | t :: rest => .objCons t (Tree.objOf rest)

/-- Fuel-indexed read-out of the value graph rooted at an address. -/
def readTreeF (h : Heap) : Nat → Nat → Option Tree
  | 0, _ => none
  | fuel + 1, a =>
      match h.lookup a with
      | some (.num n) => some (.num n)
      | some (.obj cs) => (cs.mapM (readTreeF h fuel)).map Tree.objOf
      | none => none

/-- Append a fresh cell at the next address. -/
def pushCell (h : Heap) (node : HeapNode) : Heap × Nat :=
  ({ cells := h.cells ++ [(h.next, node)], next := h.next + 1 }, h.next)

mutual
/-- Fuel-indexed port of structuredClone on the heap: copy the object graph
rooted at `a` into fresh cells, bottom-up, returning the new heap and the
clone's root address.  The fuel is consumed exactly as by readTreeF. -/
def cloneAddrF : Nat → Heap → Nat → Option (Heap × Nat)
  | 0, _, _ => none
  | fuel + 1, h, a =>
      match h.lookup a with
      | some (.num n) => some (pushCell h (.num n))
      | some (.obj cs) =>
          match cloneListF fuel h cs with
          | some (h2, rs) => some (pushCell h2 (.obj rs))
          | none => none
      | none => none

def cloneListF : Nat → Heap → List Nat → Option (Heap × List Nat)
  | _, h, [] => some (h, [])
  | fuel, h, c :: cs =>
      match cloneAddrF fuel h c with
      | some (h1, r) =>
          match cloneListF fuel h1 cs with
          | some (h2, rs) => some (h2, r :: rs)
          | none => none
      | none => none
end

/-- Heap-level ResponseCache.set: store the clone of the value under the
key (the envelope bookkeeping is orthogonal and lives in the main cache
model). -/
def jsCacheSet (fuel : Nat) (h : Heap) (store : List (String × Nat))
    (key : String) (valueAddr : Nat) : Option (Heap × List (String × Nat)) :=
  (cloneAddrF fuel h valueAddr).map (fun r => (r.1, setA store key r.2))

/-- Heap-level ResponseCache.get: return a clone of the stored value. -/
def jsCacheGetValue (fuel : Nat) (h : Heap) (store : List (String × Nat))
    (key : String) : Option (Heap × Nat) :=
  (lookupA store key).bind (fun s => cloneAddrF fuel h s)

/-- Blocked AppError witness value used in concrete evaluations. -/
def blockedError : AppError :=
  { code := .sourceBlocked, retryable := true, msgTimeout := false
    msgNetwork := false, detailsTag := 0 }

/-- Internal AppError whose message mentions a network failure. -/
def networkError : AppError :=
  { code := .internalError, retryable := false, msgTimeout := false
    msgNetwork := true, detailsTag := 0 }

/-- Validation AppError without a timeout-looking message. -/
def validationErr : AppError :=
  { code := .validationError, retryable := false, msgTimeout := false
    msgNetwork := false, detailsTag := 0 }

/-- Circuit-breaker configuration used in concrete evaluations. -/
def c2Config : CircuitBreakerConfig :=
  { enabled := true, failureThreshold := 5, openMs := 60000
    halfOpenSuccessThreshold := 2 }

/-- Empty executor state used in concrete evaluations. -/
def emptyExecutorState : ExecutorState :=
  { circuits := [], quarantine := { sourceEntries := [], proxyEntries := [] }
    proxyPool := { proxies := [] }
    fingerprints := { enabled := true, profiles := defaultProfiles.map freshProfileState
                      cursor := 0 }
    checkpoints := { maxEntries := 500, records := [] }
    dlq := { storeReady := true, index := [], store := [], entries := [], pushCount := 0 }
    incidents := { blockedMarkers := [], events := [], nextSeq := 0 }
    extractorCalls := 0 }

/-- Empty pipeline state used in concrete evaluations. -/
def emptyPipeState : PipeState :=
  { cache := { store := [], stats := emptyCacheStats }
    deduper := { inflight := [], dedupeHits := 0, executions := 0, nextPromiseId := 0 }
    exec := emptyExecutorState
    executorCalls := 0 }

/-- Pipeline configuration used in concrete evaluations. -/
def pipeConfigW : FetchPipelineConfig :=
  { fastModeEnabled := true, fastModeMaxFields := 10
    cacheCfg := { ttlMs := 120000, staleTtlMs := 60000, staleWhileRevalidate := true } }

/-- Fetch request used in concrete evaluations. -/
def requestW : FetchRequestInput :=
  { source := "x", operation := "profile"
    target := Json.objOf [("handle", Json.str "openai")]
    fields := none, freshness := none, timeoutMs := none
    fastMode := none, cacheMode := some CacheMode.default }

/-- Executor configuration used in concrete evaluations. -/
def execConfigW : ResilientExecutorConfig :=
  { retryConfig := { maxAttempts := 3, baseDelayMs := 200, maxDelayMs := 5000
                     blockedDelayMs := 1500, jitterMs := 250 }
    circuitCfg := { enabled := true, failureThreshold := 5, openMs := 60000
                    halfOpenSuccessThreshold := 2 }
    proxyCfg := { enabled := false, quarantineMs := 300000 }
    incidentCfg := { blockedSpikeThreshold := 3, blockedSpikeWindowMs := 600000
                     maxRecentEvents := 50 }
    dlqCfg := { enabled := true, maxEntries := 1000, retentionMs := 0 }
    sourceQuarantineMs := 600000
    proxyQuarantineMs := 300000 }

/-- Extraction result used in concrete evaluations. -/
def resultW : ExtractionResult :=
  { payload := Json.objOf [("full_name", Json.str "Open AI")]
    warnings := [], latencyMs := 5, stageLatencyMs := []
    cache := none, performance := none, fetchedAt := 0 }

/-- Extractor oracle that always succeeds with resultW. -/
def extractorOkW : Nat → Except AppError ExtractionResult := fun _ => .ok resultW

/-- The fingerprint of requestW under pipeConfigW. -/
def keyW : String := buildFetchCacheKey (normalizeRequest pipeConfigW requestW).request

/-- A stale envelope for resultW: written at 0, expired at 50, serveable
stale until 500. -/
def envW : CacheEnvelope ExtractionResult :=
  { value := resultW, writtenAt := 0, expiresAt := 50, staleUntil := 500 }

/-- Pipeline state holding the stale envelope under keyW. -/
def stStaleW : PipeState :=
  { emptyPipeState with cache := { store := [(keyW, envW)], stats := emptyCacheStats } }

/-- Queue configuration used in concrete evaluations: a single concurrency
slot and a 100 ms per-task timeout. -/
def c7Config : RequestQueueConfig :=
  { concurrency := 1, maxSize := 4, taskTimeoutMs := 100 }

/-- A task running for 90 ms and fulfilling with tag 0. -/
def c7TaskA : QueueTaskSpec := { durationMs := 90, outcome := .ok 0 }

/-- A task running for 90 ms and fulfilling with tag 1. -/
def c7TaskB : QueueTaskSpec := { durationMs := 90, outcome := .ok 1 }

/-- A task overrunning the 100 ms budget. -/
def c7SlowTask : QueueTaskSpec := { durationMs := 150, outcome := .ok 2 }

/-- Retry configuration exhibiting the blocked-delay clamp: the configured
blocked delay (1000) exceeds the configured maximum delay (500). -/
def c4Config : AdaptiveRetryConfig :=
  { maxAttempts := 3, baseDelayMs := 100, maxDelayMs := 500
    blockedDelayMs := 1000, jitterMs := 0 }

/-- The default retry configuration of src/config.ts. -/
def defaultRetryConfig : AdaptiveRetryConfig :=
  { maxAttempts := 3, baseDelayMs := 200, maxDelayMs := 5000
    blockedDelayMs := 1500, jitterMs := 250 }


/-- Quarantine state produced by quarantining source x at time 0 for
1000 ms. -/
def quarantinedQW : QuarantineState :=
  quarantineSource 0 { sourceEntries := [], proxyEntries := [] } "x" "manual" 1000 0

/-- The quarantine entry recorded in quarantinedQW. -/
def qEntryW : QuarantineEntry :=
  { id := normalizeKey "x", reason := "manual", untilMs := 1000
    detailsTag := 0, atMs := 0 }

/-- Executor state whose source x is quarantined until 1000. -/
def stQuarantinedW : ExecutorState :=
  { emptyExecutorState with quarantine := quarantinedQW }

/-- Pipeline state with a fresh cache entry for requestW and source x
quarantined until 1000. -/
def stFreshQuarW : PipeState :=
  { emptyPipeState with
      cache := { store := [(keyW, envW)], stats := emptyCacheStats }
      exec := stQuarantinedW }

/-! Theorems. -/

/-! ### Shared helper lemmas -/

theorem lookupA_cons_self {κ β : Type} [DecidableEq κ] (l : List (κ × β))
    (k : κ) (v : β) : lookupA ((k, v) :: l) k = some v := by
  simp [lookupA, List.find?]

theorem lookupA_cons_ne {κ β : Type} [DecidableEq κ] (l : List (κ × β))
    (k k' : κ) (v : β) (h : k' ≠ k) :
    lookupA ((k', v) :: l) k = lookupA l k := by
  simp [lookupA, List.find?, h]

theorem lookupA_filter_keep {κ β : Type} [DecidableEq κ] (l : List (κ × β))
    (p : κ × β → Bool) (k : κ) (h : ∀ v, p (k, v) = true) :
    lookupA (l.filter p) k = lookupA l k := by
  induction l with
  | nil => rfl
  | cons cell rest ih =>
      obtain ⟨a, b⟩ := cell
      by_cases hk : a = k
      · subst hk
        simp [List.filter, h b, lookupA_cons_self]
      · by_cases hp : p (a, b) = true
        · rw [List.filter_cons_of_pos hp, lookupA_cons_ne _ _ _ _ hk,
            lookupA_cons_ne _ _ _ _ hk, ih]
        · rw [List.filter_cons_of_neg (by simpa using hp),
            lookupA_cons_ne _ _ _ _ hk, ih]

theorem lookupA_filter_drop {κ β : Type} [DecidableEq κ] (l : List (κ × β))
    (p : κ × β → Bool) (k : κ) (h : ∀ v, p (k, v) = false) :
    lookupA (l.filter p) k = none := by
  induction l with
  | nil => rfl
  | cons cell rest ih =>
      obtain ⟨a, b⟩ := cell
      by_cases hk : a = k
      · subst hk
        rw [List.filter_cons_of_neg (by simp [h b]), ih]
      · by_cases hp : p (a, b) = true
        · rw [List.filter_cons_of_pos hp, lookupA_cons_ne _ _ _ _ hk, ih]
        · rw [List.filter_cons_of_neg (by simpa using hp), ih]

theorem lookupA_setA_self {κ β : Type} [DecidableEq κ] (l : List (κ × β))
    (k : κ) (v : β) : lookupA (setA l k v) k = some v :=
  lookupA_cons_self _ _ _

theorem lookupA_setA_ne {κ β : Type} [DecidableEq κ] (l : List (κ × β))
    (k k' : κ) (v : β) (h : k' ≠ k) :
    lookupA (setA l k' v) k = lookupA l k := by
  rw [setA, lookupA_cons_ne _ _ _ _ h]
  exact lookupA_filter_keep _ _ _ (fun w => by
    have hne : ¬ k = k' := fun hh => h hh.symm
    simp [hne])

theorem lookupA_removeA_self {κ β : Type} [DecidableEq κ] (l : List (κ × β))
    (k : κ) : lookupA (removeA l k) k = none :=
  lookupA_filter_drop _ _ _ (fun v => by simp)

theorem lookupA_removeA_ne {κ β : Type} [DecidableEq κ] (l : List (κ × β))
    (k k' : κ) (h : k' ≠ k) : lookupA (removeA l k') k = lookupA l k :=
  lookupA_filter_keep _ _ _ (fun v => by
    have hne : ¬ k = k' := fun hh => h hh.symm
    simp [hne])

theorem storeGet_set_self {V : Type} (store : CacheStore V) (key : String)
    (env : CacheEnvelope V) : storeGet (storeSet store key env) key = some env := by
  simp [storeGet, storeSet, List.find?]

theorem storeGet_delete_self {V : Type} (store : CacheStore V) (key : String) :
    storeGet (storeDelete store key) key = none := by
  induction store with
  | nil => rfl
  | cons cell rest ih =>
      by_cases h : cell.1 = key
      · simpa [storeDelete, List.filter, h] using ih
      · simpa [storeDelete, storeGet, List.filter, List.find?, h] using ih

/-! ### C3 — cache envelope classification -/

/-- C3 counterexample: with ttlMs = 100 and staleTtlMs = 50 a value written
at time 0 has expiresAt = 100 and staleUntil = 150.  The claim predicts
state stale at t = 100 (since expiresAt ≤ t < staleUntil) and a miss at
t = 150 (since t ≥ staleUntil), but the code classifies t = 100 as fresh
(now ≤ expiresAt) and t = 150 as stale (now ≤ staleUntil). -/
theorem c3_counterexample :
    (let cfg : ResponseCacheConfig :=
       { ttlMs := 100, staleTtlMs := 50, staleWhileRevalidate := true }
     let st0 : ResponseCacheState Nat := { store := [], stats := emptyCacheStats }
     let st1 := cacheSet cfg 0 st0 "k" 7
     (cacheGet 100 st1 "k").1.state = CacheLookupState.fresh ∧
       (cacheGet 150 st1 "k").1.state = CacheLookupState.stale ∧
       CacheLookupState.fresh ≠ CacheLookupState.stale ∧
       CacheLookupState.stale ≠ CacheLookupState.miss) := by
  decide

/-- C3 (amended): for a value written at time w (expiresAt = w + ttlMs,
staleUntil = expiresAt + staleTtlMs), a get at t ≤ expiresAt returns fresh
with the written envelope; at expiresAt < t ≤ staleUntil it returns stale;
at t > staleUntil it returns a miss, deletes the entry, and a subsequent
get at any time also misses. -/
theorem c3_cache_classification {V : Type} [DecidableEq V]
    (cfg : ResponseCacheConfig) (st : ResponseCacheState V) (key : String)
    (v : V) (w t t' : Nat) :
    (t ≤ w + cfg.ttlMs →
      (cacheGet t (cacheSet cfg w st key v) key).1.state = CacheLookupState.fresh ∧
        (cacheGet t (cacheSet cfg w st key v) key).1.entry =
          some { value := v, writtenAt := w, expiresAt := w + cfg.ttlMs
                 staleUntil := w + cfg.ttlMs + cfg.staleTtlMs }) ∧
    (w + cfg.ttlMs < t → t ≤ w + cfg.ttlMs + cfg.staleTtlMs →
      (cacheGet t (cacheSet cfg w st key v) key).1.state = CacheLookupState.stale) ∧
    (w + cfg.ttlMs + cfg.staleTtlMs < t →
      (cacheGet t (cacheSet cfg w st key v) key).1.state = CacheLookupState.miss ∧
        storeGet (cacheGet t (cacheSet cfg w st key v) key).2.store key = none ∧
        (cacheGet t' (cacheGet t (cacheSet cfg w st key v) key).2 key).1.state =
          CacheLookupState.miss) := by
  have hget : storeGet (cacheSet cfg w st key v).store key =
      some { value := v, writtenAt := w, expiresAt := w + cfg.ttlMs
             staleUntil := w + cfg.ttlMs + cfg.staleTtlMs } := by
    simp [cacheSet]
    exact storeGet_set_self _ _ _
  refine ⟨?_, ?_, ?_⟩
  · intro h1
    simp [cacheGet, hget, h1]
  · intro h1 h2
    have hfresh : ¬ (t ≤ w + cfg.ttlMs) := by omega
    simp [cacheGet, hget, hfresh, h2]
  · intro h1
    have hfresh : ¬ (t ≤ w + cfg.ttlMs) := by omega
    have hstale : ¬ (t ≤ w + cfg.ttlMs + cfg.staleTtlMs) := by omega
    refine ⟨?_, ?_, ?_⟩
    · simp [cacheGet, hget, hfresh, hstale]
    · simp [cacheGet, hget, hfresh, hstale]
      exact storeGet_delete_self _ _
    · simp [cacheGet, hget, hfresh, hstale, storeGet_delete_self]

/-- Witness for c3_cache_classification at concrete boundary times. -/
theorem c3_cache_classification_witness :
    ((90 : Nat) ≤ 0 + 100 ∧
      (cacheGet 90 (cacheSet ⟨100, 50, true⟩ 0
          ({ store := [], stats := emptyCacheStats } : ResponseCacheState Nat)
          "k" 7) "k").1.state = CacheLookupState.fresh ∧
        (cacheGet 90 (cacheSet ⟨100, 50, true⟩ 0
            ({ store := [], stats := emptyCacheStats } : ResponseCacheState Nat)
            "k" 7) "k").1.entry =
          some { value := 7, writtenAt := 0, expiresAt := 0 + 100
                 staleUntil := 0 + 100 + 50 }) :=
  ⟨by decide,
    ((c3_cache_classification ⟨100, 50, true⟩
        { store := [], stats := emptyCacheStats } "k" 7 0 90 0).1 (by decide)).1,
    ((c3_cache_classification ⟨100, 50, true⟩
        { store := [], stats := emptyCacheStats } "k" 7 0 90 0).1 (by decide)).2⟩

/-- C4 counterexample: with blockedDelayMs = 1000 above maxDelayMs = 500 and
jitter 0, the code computes a blocked retry delay of 500 (clamped), while the
claim as stated predicts blockedDelayMs plus jitter = 1000 with no clamp. -/
theorem c4_counterexample :
    decideRetry c4Config blockedError 1 0 ≠
      claimedRetryDecision c4Config blockedError 1 0 ∧
    (decideRetry c4Config blockedError 1 0).delayMs = 500 ∧
    (claimedRetryDecision c4Config blockedError 1 0).delayMs = 1000 := by
  decide

/-- C4 (amended): the retry decision is the pure function of
(config, error, attempt, jitter draw) that retries exactly the categories
blocked, timeout, network and internal while attempt < maxAttempts, with
delay blockedDelayMs plus jitter for blocked and baseDelayMs * 2^(attempt-1)
plus jitter otherwise, in both cases clamped to maxDelayMs; a non-retry
decision carries delay 0. -/
theorem c4_retry_decision (config : AdaptiveRetryConfig) (e : AppError)
    (attempt jitter : Nat) (hmax : 1 ≤ config.maxAttempts) :
    decideRetry config e attempt jitter = amendedRetryDecision config e attempt jitter := by
  have hm : max 1 config.maxAttempts = config.maxAttempts := by omega
  have hz : max 0 (attempt - 1) = attempt - 1 := by omega
  by_cases hb : classifyRetryCategory e = RetryCategory.blocked <;>
    simp only [decideRetry, amendedRetryDecision, computeDelay, hm, hz, hb,
      if_true, if_false, reduceCtorEq, ite_false, ite_true, if_pos, if_neg]

/-- Witness for c4_retry_decision at the default configuration. -/
theorem c4_retry_decision_witness :
    1 ≤ defaultRetryConfig.maxAttempts ∧
      decideRetry defaultRetryConfig blockedError 1 100 =
        amendedRetryDecision defaultRetryConfig blockedError 1 100 :=
  ⟨by decide, c4_retry_decision defaultRetryConfig blockedError 1 100 (by decide)⟩

/-- C8 counterexample: under the default retry configuration, the legal
jitter draws 249 on attempt 1 and 0 on attempt 2 (both below jitterMs = 250)
make the computed delay for a fixed network error decrease from 449 to 400,
so the computed delays over successive attempts are not non-decreasing. -/
theorem c8_counterexample :
    classifyRetryCategory networkError = .network ∧
    249 < defaultRetryConfig.jitterMs ∧
    computeDelay defaultRetryConfig .network 1 249 = 449 ∧
    computeDelay defaultRetryConfig .network 2 0 = 400 ∧
    computeDelay defaultRetryConfig .network 2 0 <
      computeDelay defaultRetryConfig .network 1 249 := by
  decide

/-- Helper: the network-category delay is the exponential backoff value
clamped from above by maxDelayMs. -/
theorem computeDelay_network (config : AdaptiveRetryConfig) (n j : Nat) :
    computeDelay config .network n j =
      min config.maxDelayMs (config.baseDelayMs * 2 ^ (n - 1) + j) := by
  simp [computeDelay, clamp]

/-- C8 (amended): for a fixed network-category error and a fixed jitter draw
the computed delays are non-decreasing in the attempt number and never
exceed maxDelayMs (so once the clamp is reached they stay there); and a
validation-category error never triggers a retry, whatever the remaining
attempt budget or jitter draw. -/
theorem c8_backoff_monotone (config : AdaptiveRetryConfig) (e e' : AppError)
    (a b j attempt jitter : Nat)
    (hnet : classifyRetryCategory e = .network)
    (hval : classifyRetryCategory e' = .validation)
    (hab : a ≤ b) :
    computeDelay config (classifyRetryCategory e) a j ≤
        computeDelay config (classifyRetryCategory e) b j ∧
    computeDelay config (classifyRetryCategory e) b j ≤ config.maxDelayMs ∧
    (decideRetry config e' attempt jitter).retry = false := by
  rw [hnet]
  refine ⟨?_, ?_, ?_⟩
  · rw [computeDelay_network, computeDelay_network]
    have hexp : a - 1 ≤ b - 1 := Nat.sub_le_sub_right hab 1
    have hpow : (2 : Nat) ^ (a - 1) ≤ 2 ^ (b - 1) :=
      Nat.pow_le_pow_right (by norm_num) hexp
    have hbase : config.baseDelayMs * 2 ^ (a - 1) + j ≤
        config.baseDelayMs * 2 ^ (b - 1) + j :=
      Nat.add_le_add_right (Nat.mul_le_mul_left _ hpow) j
    omega
  · rw [computeDelay_network]
    omega
  · have hcat : retryableCategory (classifyRetryCategory e') = false := by
      rw [hval]
      decide
    simp [decideRetry, hcat]

/-- Witness for c8_backoff_monotone at the default configuration. -/
theorem c8_backoff_monotone_witness :
    classifyRetryCategory networkError = .network ∧
    classifyRetryCategory validationErr = .validation ∧
    (1 : Nat) ≤ 2 ∧
    (computeDelay defaultRetryConfig (classifyRetryCategory networkError) 1 10 ≤
        computeDelay defaultRetryConfig (classifyRetryCategory networkError) 2 10 ∧
      computeDelay defaultRetryConfig (classifyRetryCategory networkError) 2 10 ≤
        defaultRetryConfig.maxDelayMs ∧
      (decideRetry defaultRetryConfig validationErr 1 10).retry = false) :=
  ⟨by decide, by decide, by decide,
    c8_backoff_monotone defaultRetryConfig networkError validationErr 1 2 10 1 10
      (by decide) (by decide) (by decide)⟩

/-! ### C2 — circuit breaker state machine -/

theorem circuit_fold_invariant (cfg : CircuitBreakerConfig) (now : Nat)
    (hen : cfg.enabled = true) :
    ∀ (bs : List Bool) (c : CircuitStateInternal),
      (c.state = CircuitState.closed ∨ c.state = CircuitState.opened) →
      ((c.state = CircuitState.opened) ↔
        cfg.failureThreshold ≤ c.consecutiveFailures) →
      ((foldFailures cfg now c bs).state = CircuitState.closed ∨
        (foldFailures cfg now c bs).state = CircuitState.opened) ∧
      (foldFailures cfg now c bs).consecutiveFailures =
        c.consecutiveFailures + weightSum bs ∧
      ((foldFailures cfg now c bs).state = CircuitState.opened ↔
        cfg.failureThreshold ≤ c.consecutiveFailures + weightSum bs) := by
  intro bs
  induction bs with
  | nil =>
      intro c hst hiff
      refine ⟨by simpa [foldFailures] using hst,
        by simp [foldFailures, weightSum], ?_⟩
      simpa [foldFailures, weightSum] using hiff
  | cons b rest ih =>
      intro c hst hiff
      have hstep : foldFailures cfg now c (b :: rest) =
          foldFailures cfg now (recordFailureC cfg now b c) rest := by
        simp [foldFailures]
      set w := if b then (2 : Nat) else 1 with hw
      have hc1 : recordFailureC cfg now b c =
          (let c1 : CircuitStateInternal :=
            { c with lastFailureAt := some now
                     consecutiveFailures := c.consecutiveFailures + w }
           if cfg.failureThreshold ≤ c1.consecutiveFailures then
             openCircuit cfg now c1 else c1) := by
        have hnho : c.state ≠ CircuitState.halfOpen := by
          rcases hst with h | h <;> simp [h]
        simp only [recordFailureC, hen]
        simp [hnho, hw]
      by_cases hth : cfg.failureThreshold ≤ c.consecutiveFailures + w
      · have hc1' : recordFailureC cfg now b c =
            openCircuit cfg now
              { c with lastFailureAt := some now
                       consecutiveFailures := c.consecutiveFailures + w } := by
          rw [hc1]
          simp [hth]
        have := ih (recordFailureC cfg now b c)
          (by rw [hc1']; simp [openCircuit])
          (by rw [hc1']; simpa [openCircuit] using hth)
        rw [hstep]
        refine ⟨this.1, ?_, ?_⟩
        · rw [this.2.1, hc1']
          simp only [openCircuit, weightSum, List.map, List.sum_cons, circuitFailWeight]
          omega
        · rw [this.2.2, hc1']
          simp only [openCircuit, weightSum, List.map, List.sum_cons, circuitFailWeight]
          constructor <;> intro h <;> omega
      · have hc1' : recordFailureC cfg now b c =
            { c with lastFailureAt := some now
                     consecutiveFailures := c.consecutiveFailures + w } := by
          rw [hc1]
          simp [hth]
        have := ih (recordFailureC cfg now b c)
          (by rw [hc1']; simpa using hst)
          (by
            rw [hc1']
            constructor
            · intro h
              exact absurd (hiff.mp h) (by omega)
            · intro h
              exact absurd h hth)
        rw [hstep]
        refine ⟨this.1, ?_, ?_⟩
        · rw [this.2.1, hc1']
          simp only [weightSum, List.map, List.sum_cons, circuitFailWeight]
          omega
        · rw [this.2.2, hc1']
          simp only [weightSum, List.map, List.sum_cons, circuitFailWeight]
          constructor <;> intro h <;> omega

theorem foldSuccesses_succ (cfg : CircuitBreakerConfig) (now : Nat)
    (c : CircuitStateInternal) (k : Nat) :
    foldSuccesses cfg now c (k + 1) =
      foldSuccesses cfg now (recordSuccessC cfg now c) k := by
  simp [foldSuccesses, List.replicate_succ]

theorem circuit_half_open_successes (cfg : CircuitBreakerConfig) (now : Nat)
    (hen : cfg.enabled = true) :
    ∀ (k : Nat) (c : CircuitStateInternal),
      c.state = CircuitState.halfOpen → 1 ≤ k →
      c.halfOpenSuccesses + k = cfg.halfOpenSuccessThreshold →
      (foldSuccesses cfg now c k).state = CircuitState.closed ∧
        (foldSuccesses cfg now c k).consecutiveFailures = 0 := by
  intro k
  induction k with
  | zero => intro c _ hk; omega
  | succ k ih =>
      intro c hst _ hcount
      rw [foldSuccesses_succ]
      have hrec : recordSuccessC cfg now c =
          (let c1 : CircuitStateInternal :=
            { c with lastSuccessAt := some now
                     halfOpenSuccesses := c.halfOpenSuccesses + 1 }
           if cfg.halfOpenSuccessThreshold ≤ c1.halfOpenSuccesses then
             resetCircuit c1 else c1) := by
        simp only [recordSuccessC, hen]
        simp [hst]
      rcases Nat.eq_zero_or_pos k with hk0 | hkpos
      · subst hk0
        have hthr : cfg.halfOpenSuccessThreshold ≤ c.halfOpenSuccesses + 1 := by omega
        rw [hrec]
        simp [hthr, resetCircuit, foldSuccesses]
      · have hthr : ¬ (cfg.halfOpenSuccessThreshold ≤ c.halfOpenSuccesses + 1) := by
          omega
        rw [hrec]
        simp only [hthr, if_false]
        exact ih _ (by simp [hst]) hkpos (by simp; omega)

/-- C2: the per-source circuit breaker state machine.  A lazily created
record starts closed; consecutive failures whose weights (2 for blocked, 1
otherwise) sum to at least failureThreshold leave the circuit open; while
open and before openUntil, assertCanExecute throws the circuit-open error
and a runAttempt under it fails without invoking the Extractor; once openMs
has elapsed (now at or past openUntil) the next check transitions to
half_open and permits execution; halfOpenSuccessThreshold consecutive
recorded successes in half_open return it to closed with the
consecutive-failure counter reset to 0; any single recorded failure in
half_open reopens it. -/
theorem c2_circuit_breaker (cfg : CircuitBreakerConfig) (key : String) (now : Nat)
    (hen : cfg.enabled = true) (hthr : 1 ≤ cfg.failureThreshold)
    (hhalf : 1 ≤ cfg.halfOpenSuccessThreshold) :
    (freshCircuit key).state = CircuitState.closed ∧
    (∀ bs : List Bool, cfg.failureThreshold ≤ weightSum bs →
      (foldFailures cfg now (freshCircuit key) bs).state = CircuitState.opened) ∧
    (∀ (c : CircuitStateInternal) (u : Nat), c.state = CircuitState.opened →
      c.openUntil = some u → now < u →
      (assertCanExecuteC cfg now c).2 = some circuitOpenError) ∧
    circuitOpenError.code = AppErrorCode.circuitOpen ∧
    (∀ (ecfg : ResilientExecutorConfig)
        (extractor : Nat → Except AppError ExtractionResult)
        (requestId source operation : String) (request : FetchRequestInput)
        (attempt : Nat) (ls : ExecLoopState) (c : CircuitStateInternal) (u : Nat),
      ecfg.circuitCfg = cfg →
      (assertSourceReady now ls.st.quarantine source).2 = none →
      lookupA ls.st.circuits (normalizeKey source) = some c →
      c.state = CircuitState.opened → c.openUntil = some u → now < u →
      (runAttempt ecfg extractor requestId source operation request
          attempt now ls).1 = Except.error circuitOpenError ∧
        (runAttempt ecfg extractor requestId source operation request
          attempt now ls).2.st.extractorCalls = ls.st.extractorCalls) ∧
    (∀ (c : CircuitStateInternal) (u : Nat), c.state = CircuitState.opened →
      c.openUntil = some u → u ≤ now →
      (maybeTransitionFromOpen now c).state = CircuitState.halfOpen ∧
        (assertCanExecuteC cfg now c).2 = none) ∧
    (∀ c : CircuitStateInternal, c.state = CircuitState.halfOpen →
      c.halfOpenSuccesses = 0 →
      (foldSuccesses cfg now c cfg.halfOpenSuccessThreshold).state =
          CircuitState.closed ∧
        (foldSuccesses cfg now c cfg.halfOpenSuccessThreshold).consecutiveFailures
          = 0) ∧
    (∀ (c : CircuitStateInternal) (b : Bool), c.state = CircuitState.halfOpen →
      (recordFailureC cfg now b c).state = CircuitState.opened) := by
  refine ⟨rfl, ?_, ?_, rfl, ?_, ?_, ?_, ?_⟩
  · intro bs hbs
    have hfresh1 : (freshCircuit key).state = CircuitState.closed ∨
        (freshCircuit key).state = CircuitState.opened := Or.inl rfl
    have hfresh2 : ((freshCircuit key).state = CircuitState.opened) ↔
        cfg.failureThreshold ≤ (freshCircuit key).consecutiveFailures := by
      simp [freshCircuit]
      omega
    have h := circuit_fold_invariant cfg now hen bs (freshCircuit key) hfresh1 hfresh2
    exact h.2.2.mpr (by simpa [freshCircuit] using hbs)
  · intro c u hst hu hnow
    simp [assertCanExecuteC, maybeTransitionFromOpen, hen, hst, hu, hnow]
  · intro ecfg extractor requestId source operation request attempt ls c u
      hcfg hq hlook hst hu hnow
    have hassert : assertCanExecuteC cfg now c = (c, some circuitOpenError) := by
      simp [assertCanExecuteC, maybeTransitionFromOpen, hen, hst, hu, hnow]
    constructor <;>
      simp [runAttempt, hq, registryAssertCanExecute, hcfg, hen, hlook, hassert]
  · intro c u hst hu hnow
    have hno : ¬ now < u := by omega
    constructor
    · simp [maybeTransitionFromOpen, hst, hu, hno]
    · simp [assertCanExecuteC, maybeTransitionFromOpen, hen, hst, hu, hno]
  · intro c hst hzero
    exact circuit_half_open_successes cfg now hen cfg.halfOpenSuccessThreshold c
      hst hhalf (by omega)
  · intro c b hst
    simp [recordFailureC, hen, hst, openCircuit]

/-- Witness for c2_circuit_breaker: three failures of weight 2 against
threshold 5 open the circuit for source x. -/
theorem c2_circuit_breaker_witness :
    c2Config.enabled = true ∧ (1 : Nat) ≤ c2Config.failureThreshold ∧
      (1 : Nat) ≤ c2Config.halfOpenSuccessThreshold ∧
      c2Config.failureThreshold ≤ weightSum [true, true, true] ∧
      (foldFailures c2Config 0 (freshCircuit "x") [true, true, true]).state =
        CircuitState.opened :=
  ⟨rfl, by decide, by decide, by decide,
    (c2_circuit_breaker c2Config "x" 0 rfl (by decide) (by decide)).2.1
      [true, true, true] (by decide)⟩

/-! ### C7 — per-task timeout covers the running phase only -/

/-- C7 counterexample: with one concurrency slot and taskTimeoutMs = 100,
task B is enqueued at time 0 behind the 90 ms task A, starts at 90 and
settles fulfilled at 180.  B spends 180 ms wall-clock queued-or-running,
exceeding its allotted 100 ms, yet its promise is fulfilled with its own
result rather than rejected with a queue-timeout error: the withTimeout
clock only starts when runTask dequeues the task. -/
theorem c7_counterexample :
    runQueueSeq c7Config [c7TaskA, c7TaskB] 0 =
        [(0, 90, Except.ok 0), (90, 180, Except.ok 1)] ∧
      c7Config.taskTimeoutMs < 180 - 0 ∧
      (Except.ok 1 : Except AppError Nat) ≠ Except.error queueTimeoutError := by
  decide

/-- C7 (amended): the wall-clock budget applies to the running phase: every
admitted task settles (none is dropped), a task whose run exceeds
taskTimeoutMs after being started is rejected with the queue-timeout
error, and one that finishes within the budget settles with its own
outcome; time spent waiting in the queue is not counted. -/
theorem c7_queue_timeout (cfg : RequestQueueConfig) (tasks : List QueueTaskSpec)
    (clock : Nat) :
    (runQueueSeq cfg tasks clock).length = tasks.length ∧
    ∀ (i : Nat) (t : QueueTaskSpec), tasks.get? i = some t →
      ((runQueueSeq cfg tasks clock).get? i).map (fun r => r.2.2) =
        some (if cfg.taskTimeoutMs < t.durationMs then
            Except.error queueTimeoutError
          else t.outcome) := by
  constructor
  · induction tasks generalizing clock with
    | nil => rfl
    | cons t rest ih => simpa [runQueueSeq] using ih _
  · induction tasks generalizing clock with
    | nil => intro i t h; cases h
    | cons t rest ih =>
        intro i u h
        cases i with
        | zero =>
            cases h
            simp only [runQueueSeq, List.get?, Option.map, withTimeoutModel]
            split <;> split <;> first | rfl | omega
        | succ j =>
            simpa [runQueueSeq] using ih _ j u (by simpa using h)

/-- Witness for c7_queue_timeout: a 150 ms task against the 100 ms budget
settles rejected with the queue-timeout error. -/
theorem c7_queue_timeout_witness :
    (runQueueSeq c7Config [c7SlowTask] 0).length = [c7SlowTask].length ∧
      ((runQueueSeq c7Config [c7SlowTask] 0).get? 0).map (fun r => r.2.2) =
        some (if c7Config.taskTimeoutMs < c7SlowTask.durationMs then
            Except.error queueTimeoutError
          else c7SlowTask.outcome) :=
  ⟨(c7_queue_timeout c7Config [c7SlowTask] 0).1,
    (c7_queue_timeout c7Config [c7SlowTask] 0).2 0 c7SlowTask (by decide)⟩

/-! ### C1 — single-flight deduplication -/

theorem filter_replicate_none {α : Type} (p : α → Bool) (a : α) (h : p a = false)
    (m : Nat) : (List.replicate m a).filter p = [] := by
  induction m with
  | zero => rfl
  | succ m ih => simp [List.replicate_succ, List.filter, h, ih]

theorem filter_replicate_all {α : Type} (p : α → Bool) (a : α) (h : p a = true)
    (m : Nat) : (List.replicate m a).filter p = List.replicate m a := by
  induction m with
  | zero => rfl
  | succ m ih => simp [List.replicate_succ, List.filter, h, ih]

/-- The decorated miss-path results of two callers sharing one execution
outcome agree once the per-caller deduplicated marker is forgotten. -/
theorem dropDeduped_decorate (pcfg : FetchPipelineConfig)
    (result : ExtractionResult) (normalized : NormalizedRequest)
    (cacheKey : String) (d : Bool) (swr : Bool) (startedAt now : Nat)
    (stages : List (String × Nat)) :
    dropDedupedFlag
        (decorateExtractedResult pcfg result normalized cacheKey d swr
          startedAt now stages) =
      dropDedupedFlag
        (decorateExtractedResult pcfg result normalized cacheKey false swr
          startedAt now stages) := by
  simp [dropDedupedFlag, decorateExtractedResult]

/-- Callers joining an outstanding registration leave the inflight map, the
execution counter, the pipeline executor-call counter and the cache store
untouched, and each observes the registered promise as deduplicated. -/
theorem concurrentMissPhase1_joined (pcfg : FetchPipelineConfig) (now : Nat)
    (input : FetchRequestInput) :
    ∀ (m : Nat) (st1 : PipeState) (pid : Nat),
      inflightLookup st1.deduper
          (buildFetchCacheKey (normalizeRequest pcfg input).request) = some pid →
      storeGet st1.cache.store
          (buildFetchCacheKey (normalizeRequest pcfg input).request) = none →
      (concurrentMissPhase1 pcfg now input m st1).1.deduper.inflight =
          st1.deduper.inflight ∧
      (concurrentMissPhase1 pcfg now input m st1).1.deduper.executions =
          st1.deduper.executions ∧
      (concurrentMissPhase1 pcfg now input m st1).1.deduper.nextPromiseId =
          st1.deduper.nextPromiseId ∧
      (concurrentMissPhase1 pcfg now input m st1).1.executorCalls =
          st1.executorCalls ∧
      (concurrentMissPhase1 pcfg now input m st1).1.cache.store =
          st1.cache.store ∧
      (concurrentMissPhase1 pcfg now input m st1).2 =
          List.replicate m (pid, true) := by
  intro m
  induction m with
  | zero =>
      intro st1 pid hreg hmiss
      simp [concurrentMissPhase1]
  | succ m ih =>
      intro st1 pid hreg hmiss
      have hcall : missCallerPhase1 pcfg now st1 input =
          ({ st1 with
              cache := (cacheGet now st1.cache
                (buildFetchCacheKey (normalizeRequest pcfg input).request)).2
              deduper := { st1.deduper with
                dedupeHits := st1.deduper.dedupeHits + 1 } },
            pid, true) := by
        simp only [missCallerPhase1, dedupRun, hreg]
        simp
      have hstore : (cacheGet now st1.cache
          (buildFetchCacheKey (normalizeRequest pcfg input).request)).2.store =
          st1.cache.store := by
        simp [cacheGet, hmiss]
      have ihx := ih (missCallerPhase1 pcfg now st1 input).1 pid
        (by rw [hcall]; simpa [inflightLookup] using hreg)
        (by rw [hcall]; simpa [hstore] using hmiss)
      refine ⟨?_, ?_, ?_, ?_, ?_, ?_⟩
      · simp only [concurrentMissPhase1]
        rw [ihx.1, hcall]
      · simp only [concurrentMissPhase1]
        rw [ihx.2.1, hcall]
      · simp only [concurrentMissPhase1]
        rw [ihx.2.2.1, hcall]
      · simp only [concurrentMissPhase1]
        rw [ihx.2.2.2.1, hcall]
      · simp only [concurrentMissPhase1]
        rw [ihx.2.2.2.2.1, hcall]
        exact hstore
      · simp only [concurrentMissPhase1]
        rw [ihx.2.2.2.2.2, show (missCallerPhase1 pcfg now st1 input).2 = (pid, true)
          by rw [hcall]]
        simp [List.replicate_succ]

/-- C1: single-flight per key.  When n callers concurrently run
FetchPipeline.execute with the identical default-mode request against a
cache miss and no outstanding registration, exactly one underlying
executor.execute call is made (one task starts, one execution is counted),
all n callers hold the same promise and their decorated results agree
except for the deduplicated marker, exactly n-1 of them are marked
deduplicated, and the registration is removed when the execution settles
(fulfilled or rejected) so a later run with the same key starts a new
execution. -/
theorem c1_single_flight (pcfg : FetchPipelineConfig) (now writeAt : Nat)
    (st : PipeState) (input : FetchRequestInput) (n : Nat) (hn : 1 ≤ n)
    (hmode : input.cacheMode = some CacheMode.default)
    (hmiss : storeGet st.cache.store
      (buildFetchCacheKey (normalizeRequest pcfg input).request) = none)
    (hfree : inflightLookup st.deduper
      (buildFetchCacheKey (normalizeRequest pcfg input).request) = none) :
    (concurrentMissPhase1 pcfg now input n st).1.executorCalls =
        st.executorCalls + 1 ∧
    (concurrentMissPhase1 pcfg now input n st).1.deduper.executions =
        st.deduper.executions + 1 ∧
    (∀ r ∈ (concurrentMissPhase1 pcfg now input n st).2,
        r.1 = st.deduper.nextPromiseId) ∧
    (concurrentMissPhase1 pcfg now input n st).2.length = n ∧
    ((concurrentMissPhase1 pcfg now input n st).2.filter
        (fun r => r.2 = false)).length = 1 ∧
    ((concurrentMissPhase1 pcfg now input n st).2.filter
        (fun r => r.2 = true)).length = n - 1 ∧
    (∀ (outcome : Except AppError ExtractionResult)
        (r r' : Nat × Bool), r ∈ (concurrentMissPhase1 pcfg now input n st).2 →
        r' ∈ (concurrentMissPhase1 pcfg now input n st).2 →
        (missCallerResult pcfg now input outcome r.2).map dropDedupedFlag =
          (missCallerResult pcfg now input outcome r'.2).map dropDedupedFlag) ∧
    (∀ outcome, inflightLookup
        (missSettle pcfg writeAt (concurrentMissPhase1 pcfg now input n st).1
          input outcome).deduper
        (buildFetchCacheKey (normalizeRequest pcfg input).request) = none) ∧
    (∀ outcome,
      (dedupRun
          (missSettle pcfg writeAt (concurrentMissPhase1 pcfg now input n st).1
            input outcome).deduper
          (buildFetchCacheKey (normalizeRequest pcfg input).request)).2.2 = false ∧
      (dedupRun
          (missSettle pcfg writeAt (concurrentMissPhase1 pcfg now input n st).1
            input outcome).deduper
          (buildFetchCacheKey (normalizeRequest pcfg input).request)).1.executions =
        (concurrentMissPhase1 pcfg now input n st).1.deduper.executions + 1) := by
  obtain ⟨m, rfl⟩ : ∃ m, n = m + 1 := ⟨n - 1, by omega⟩
  have hcall1 : missCallerPhase1 pcfg now st input =
      ({ st with
          cache := (cacheGet now st.cache
            (buildFetchCacheKey (normalizeRequest pcfg input).request)).2
          deduper := { st.deduper with
            executions := st.deduper.executions + 1
            nextPromiseId := st.deduper.nextPromiseId + 1
            inflight := (buildFetchCacheKey (normalizeRequest pcfg input).request,
              st.deduper.nextPromiseId) :: st.deduper.inflight }
          executorCalls := st.executorCalls + 1 },
        st.deduper.nextPromiseId, false) := by
    simp only [missCallerPhase1, dedupRun, hfree]
    simp
  have hstore1 : (missCallerPhase1 pcfg now st input).1.cache.store =
      st.cache.store := by
    rw [hcall1]
    simp [cacheGet, hmiss]
  have hreg1 : inflightLookup (missCallerPhase1 pcfg now st input).1.deduper
      (buildFetchCacheKey (normalizeRequest pcfg input).request) =
      some st.deduper.nextPromiseId := by
    rw [hcall1]
    exact lookupA_cons_self _ _ _
  have hjoin := concurrentMissPhase1_joined pcfg now input m
    (missCallerPhase1 pcfg now st input).1 st.deduper.nextPromiseId hreg1
    (by rw [hstore1]; exact hmiss)
  have hout : concurrentMissPhase1 pcfg now input (m + 1) st =
      ((concurrentMissPhase1 pcfg now input m
          (missCallerPhase1 pcfg now st input).1).1,
        (missCallerPhase1 pcfg now st input).2 ::
          (concurrentMissPhase1 pcfg now input m
            (missCallerPhase1 pcfg now st input).1).2) := by
    simp [concurrentMissPhase1]
  have hlist : (concurrentMissPhase1 pcfg now input (m + 1) st).2 =
      (st.deduper.nextPromiseId, false) ::
        List.replicate m (st.deduper.nextPromiseId, true) := by
    rw [hout]
    simp only [hjoin.2.2.2.2.2]
    rw [show (missCallerPhase1 pcfg now st input).2 =
      (st.deduper.nextPromiseId, false) by rw [hcall1]]
  have hinflight : (concurrentMissPhase1 pcfg now input (m + 1) st).1.deduper.inflight =
      (buildFetchCacheKey (normalizeRequest pcfg input).request,
        st.deduper.nextPromiseId) :: st.deduper.inflight := by
    rw [hout]
    simp only [hjoin.1]
    rw [hcall1]
  have hexeccnt : (concurrentMissPhase1 pcfg now input (m + 1) st).1.deduper.executions =
      st.deduper.executions + 1 := by
    rw [hout]
    simp only [hjoin.2.1]
    rw [hcall1]
  have hsettle : ∀ outcome, (missSettle pcfg writeAt
      (concurrentMissPhase1 pcfg now input (m + 1) st).1 input outcome).deduper =
      { (concurrentMissPhase1 pcfg now input (m + 1) st).1.deduper with
        inflight := removeA
          (concurrentMissPhase1 pcfg now input (m + 1) st).1.deduper.inflight
          (buildFetchCacheKey (normalizeRequest pcfg input).request) } := by
    intro outcome
    cases outcome <;> simp [missSettle, dedupSettle]
  have hsettled : ∀ outcome, inflightLookup (missSettle pcfg writeAt
      (concurrentMissPhase1 pcfg now input (m + 1) st).1 input outcome).deduper
      (buildFetchCacheKey (normalizeRequest pcfg input).request) = none := by
    intro outcome
    rw [hsettle outcome]
    exact lookupA_removeA_self _ _
  refine ⟨?_, hexeccnt, ?_, ?_, ?_, ?_, ?_, hsettled, ?_⟩
  · rw [hout]
    simp only [hjoin.2.2.2.1]
    rw [hcall1]
  · intro r hr
    rw [hlist] at hr
    rcases List.mem_cons.mp hr with h | h
    · rw [h]
    · exact congrArg Prod.fst (List.eq_of_mem_replicate h)
  · rw [hlist]
    simp
  · rw [hlist]
    simp only [List.filter]
    rw [filter_replicate_none _ _ (by simp) m]
    simp
  · rw [hlist]
    simp only [List.filter]
    rw [filter_replicate_all _ _ (by simp) m]
    simp
  · intro outcome r r' hr hr'
    have hflag : ∀ (d : Bool),
        (missCallerResult pcfg now input outcome d).map dropDedupedFlag =
          (missCallerResult pcfg now input outcome false).map dropDedupedFlag := by
      intro d
      cases outcome with
      | ok v =>
          simp only [missCallerResult, Except.map]
          exact congrArg Except.ok (dropDeduped_decorate pcfg (clone v)
            (normalizeRequest pcfg input)
            (buildFetchCacheKey (normalizeRequest pcfg input).request) d false
            now now [("pipeline_cache_lookup_ms", 0), ("pipeline_dedupe_wait_ms", 0)])
      | error e => simp [missCallerResult]
    rw [hflag r.2, hflag r'.2]
  · intro outcome
    refine ⟨?_, ?_⟩
    · simp [dedupRun, inflightLookup] at hsettled ⊢
      simp [hsettled outcome]
    · simp only [dedupRun]
      rw [show inflightLookup (missSettle pcfg writeAt
          (concurrentMissPhase1 pcfg now input (m + 1) st).1 input outcome).deduper
          (buildFetchCacheKey (normalizeRequest pcfg input).request) = none
        from hsettled outcome]
      rw [hsettle outcome]

/-- Witness for c1_single_flight: three concurrent identical callers
against an empty cache and deduplicator make exactly one executor call and
two of the three are marked deduplicated. -/
theorem c1_single_flight_witness :
    ((1 : Nat) ≤ 3 ∧ requestW.cacheMode = some CacheMode.default ∧
      storeGet (emptyPipeState.cache.store)
        (buildFetchCacheKey (normalizeRequest pipeConfigW requestW).request) = none ∧
      inflightLookup emptyPipeState.deduper
        (buildFetchCacheKey (normalizeRequest pipeConfigW requestW).request) = none) ∧
    (concurrentMissPhase1 pipeConfigW 1000 requestW 3 emptyPipeState).1.executorCalls =
        emptyPipeState.executorCalls + 1 ∧
    ((concurrentMissPhase1 pipeConfigW 1000 requestW 3 emptyPipeState).2.filter
        (fun r => r.2 = true)).length = 3 - 1 :=
  ⟨⟨by decide, by decide, by decide, by decide⟩,
    (c1_single_flight pipeConfigW 1000 2000 emptyPipeState requestW 3
      (by decide) (by decide) (by decide) (by decide)).1,
    (c1_single_flight pipeConfigW 1000 2000 emptyPipeState requestW 3
      (by decide) (by decide) (by decide) (by decide)).2.2.2.2.2.1⟩

/-! ### C9 — stale-while-revalidate -/

set_option maxHeartbeats 1000000 in
/-- C9: on a stale hit with stale-while-revalidate enabled and default
cache mode, FetchPipeline.execute returns the cloned stale cached value
immediately — the same fulfilled result whatever the background refresh
does, so a refresh failure never surfaces through the original response
path — and triggers exactly one background re-execution through the
deduplicator under the same key (one execution counted, one pipeline-level
executor.execute call, registration removed on settlement); a successful
refresh writes a fresh envelope for the key, a failed one leaves the
cached entry as it was. -/
theorem c9_stale_while_revalidate (pcfg : FetchPipelineConfig)
    (ecfg : ResilientExecutorConfig)
    (extractor : Nat → Except AppError ExtractionResult) (times jitters : Nat → Nat)
    (requestId : String) (dlqNonce : Nat) (joined : Except AppError ExtractionResult)
    (now writeAt : Nat) (st : PipeState) (input : FetchRequestInput)
    (env : CacheEnvelope ExtractionResult)
    (hmode : input.cacheMode = some CacheMode.default)
    (hswr : pcfg.cacheCfg.staleWhileRevalidate = true)
    (hentry : storeGet st.cache.store
      (buildFetchCacheKey (normalizeRequest pcfg input).request) = some env)
    (hexp : env.expiresAt < now) (hstale : now ≤ env.staleUntil)
    (hfree : inflightLookup st.deduper
      (buildFetchCacheKey (normalizeRequest pcfg input).request) = none) :
    (pipelineExecute pcfg ecfg extractor times jitters requestId dlqNonce joined
        now writeAt st input).1 =
      Except.ok (decorateCachedResult pcfg (clone env.value)
        (normalizeRequest pcfg input)
        (buildFetchCacheKey (normalizeRequest pcfg input).request) "stale" true true
        now now [("pipeline_cache_lookup_ms", 0)]) ∧
    (pipelineExecute pcfg ecfg extractor times jitters requestId dlqNonce joined
        now writeAt st input).2.deduper.executions = st.deduper.executions + 1 ∧
    (pipelineExecute pcfg ecfg extractor times jitters requestId dlqNonce joined
        now writeAt st input).2.executorCalls = st.executorCalls + 1 ∧
    inflightLookup (pipelineExecute pcfg ecfg extractor times jitters requestId
        dlqNonce joined now writeAt st input).2.deduper
      (buildFetchCacheKey (normalizeRequest pcfg input).request) = none ∧
    (∀ refreshed,
      (executeResilient ecfg extractor times jitters requestId dlqNonce st.exec
          { (normalizeRequest pcfg input).request with
            cacheMode := some CacheMode.refresh }).1 = Except.ok refreshed →
      storeGet (pipelineExecute pcfg ecfg extractor times jitters requestId dlqNonce
          joined now writeAt st input).2.cache.store
        (buildFetchCacheKey (normalizeRequest pcfg input).request) =
        some { value := refreshed, writtenAt := writeAt
               expiresAt := writeAt + pcfg.cacheCfg.ttlMs
               staleUntil := writeAt + pcfg.cacheCfg.ttlMs + pcfg.cacheCfg.staleTtlMs }) ∧
    (∀ e,
      (executeResilient ecfg extractor times jitters requestId dlqNonce st.exec
          { (normalizeRequest pcfg input).request with
            cacheMode := some CacheMode.refresh }).1 = Except.error e →
      storeGet (pipelineExecute pcfg ecfg extractor times jitters requestId dlqNonce
          joined now writeAt st input).2.cache.store
        (buildFetchCacheKey (normalizeRequest pcfg input).request) = some env) := by
  have hnm : (normalizeRequest pcfg input).request.cacheMode =
      some CacheMode.default := by
    unfold normalizeRequest
    by_cases hf : (pcfg.fastModeEnabled && input.fastMode.getD false) = false <;>
      simp [hf, hmode]
  have hne : ¬ now ≤ env.expiresAt := by omega
  have hfree' : lookupA st.deduper.inflight
      (buildFetchCacheKey (normalizeRequest pcfg input).request) = none := hfree
  cases her : (executeResilient ecfg extractor times jitters requestId dlqNonce
      st.exec { (normalizeRequest pcfg input).request with
        cacheMode := some CacheMode.refresh }).1 with
  | ok refreshed =>
      refine ⟨?_, ?_, ?_, ?_, ?_, ?_⟩
      · simp [pipelineExecute, hnm, cacheGet, hentry, hne, hstale, hswr, dedupRun,
          inflightLookup, hfree', her]
      · simp [pipelineExecute, hnm, cacheGet, hentry, hne, hstale, hswr, dedupRun,
          inflightLookup, hfree', her, dedupSettle]
      · simp [pipelineExecute, hnm, cacheGet, hentry, hne, hstale, hswr, dedupRun,
          inflightLookup, hfree', her]
      · simp [pipelineExecute, hnm, cacheGet, hentry, hne, hstale, hswr, dedupRun,
          inflightLookup, hfree', her, dedupSettle, lookupA_removeA_self]
      · intro r hr
        cases hr
        simp [pipelineExecute, hnm, cacheGet, hentry, hne, hstale, hswr, dedupRun,
          inflightLookup, hfree', her, cacheSet, storeGet_set_self]
      · intro e he
        exact Except.noConfusion he
  | error e0 =>
      refine ⟨?_, ?_, ?_, ?_, ?_, ?_⟩
      · simp [pipelineExecute, hnm, cacheGet, hentry, hne, hstale, hswr, dedupRun,
          inflightLookup, hfree', her]
      · simp [pipelineExecute, hnm, cacheGet, hentry, hne, hstale, hswr, dedupRun,
          inflightLookup, hfree', her, dedupSettle]
      · simp [pipelineExecute, hnm, cacheGet, hentry, hne, hstale, hswr, dedupRun,
          inflightLookup, hfree', her]
      · simp [pipelineExecute, hnm, cacheGet, hentry, hne, hstale, hswr, dedupRun,
          inflightLookup, hfree', her, dedupSettle, lookupA_removeA_self]
      · intro r hr
        exact Except.noConfusion hr
      · intro e he
        cases he
        simp [pipelineExecute, hnm, cacheGet, hentry, hne, hstale, hswr, dedupRun,
          inflightLookup, hfree', her, hentry]

/-- Witness for c9_stale_while_revalidate: a stale hit at time 100 starts
exactly one background refresh. -/
theorem c9_stale_while_revalidate_witness :
    (requestW.cacheMode = some CacheMode.default ∧
      pipeConfigW.cacheCfg.staleWhileRevalidate = true ∧
      storeGet stStaleW.cache.store
        (buildFetchCacheKey (normalizeRequest pipeConfigW requestW).request) =
          some envW ∧
      envW.expiresAt < 100 ∧ (100 : Nat) ≤ envW.staleUntil ∧
      inflightLookup stStaleW.deduper
        (buildFetchCacheKey (normalizeRequest pipeConfigW requestW).request) = none) ∧
    (pipelineExecute pipeConfigW execConfigW extractorOkW (fun _ => 0) (fun _ => 0)
        "r1" 1 (Except.error queueTimeoutError) 100 200 stStaleW
        requestW).2.deduper.executions = stStaleW.deduper.executions + 1 ∧
    (pipelineExecute pipeConfigW execConfigW extractorOkW (fun _ => 0) (fun _ => 0)
        "r1" 1 (Except.error queueTimeoutError) 100 200 stStaleW
        requestW).2.executorCalls = stStaleW.executorCalls + 1 :=
  ⟨⟨rfl, rfl, by decide, by decide, by decide, by decide⟩,
    (c9_stale_while_revalidate pipeConfigW execConfigW extractorOkW (fun _ => 0)
      (fun _ => 0) "r1" 1 (Except.error queueTimeoutError) 100 200 stStaleW
      requestW envW rfl rfl (by decide) (by decide) (by decide) (by decide)).2.1,
    (c9_stale_while_revalidate pipeConfigW execConfigW extractorOkW (fun _ => 0)
      (fun _ => 0) "r1" 1 (Except.error queueTimeoutError) 100 200 stStaleW
      requestW envW rfl rfl (by decide) (by decide) (by decide) (by decide)).2.2.1⟩

/-! ### C5 — dead-letter completeness and bounded index -/

theorem dlqEvictLoop_spec (maxE : Nat) :
    ∀ (fuel : Nat) (index : List DeadLetterId)
      (store entries : List (DeadLetterId × DeadLetterEntry)),
      index.length ≤ fuel →
      dlqEvictLoop maxE fuel index store entries =
        (index.take maxE,
          store.filter (fun cell => !((index.drop maxE).contains cell.1)),
          entries.filter (fun cell => !((index.drop maxE).contains cell.1))) := by
  intro fuel
  induction fuel with
  | zero =>
      intro index store entries hlen
      have hnil : index = [] := List.eq_nil_of_length_eq_zero (by omega)
      subst hnil
      have h2 : ∀ (l : List (DeadLetterId × DeadLetterEntry)),
          l.filter (fun cell => !((([] : List DeadLetterId).drop maxE).contains cell.1)) = l :=
        fun l => List.filter_eq_self.mpr (by simp)
      simp [dlqEvictLoop, h2]
  | succ fuel ih =>
      intro index store entries hlen
      by_cases hle : index.length ≤ maxE
      · have hdropnil : index.drop maxE = [] := List.drop_eq_nil_of_le hle
        have h2 : ∀ (l : List (DeadLetterId × DeadLetterEntry)),
            l.filter (fun cell => !((index.drop maxE).contains cell.1)) = l := by
          intro l
          rw [hdropnil]
          exact List.filter_eq_self.mpr (by intro a _; simp)
        simp only [dlqEvictLoop, hle, if_true, if_pos]
        rw [List.take_of_length_le hle, h2 store, h2 entries]
      · have hne : index ≠ [] := by
          intro h
          subst h
          simp at hle
        have hgl : index.getLast? = some (index.getLast hne) :=
          List.getLast?_eq_getLast _ hne
        have hlen' : index.dropLast.length ≤ fuel := by
          simp only [List.length_dropLast]
          omega
        have hdrop : index.drop maxE =
            index.dropLast.drop maxE ++ [index.getLast hne] := by
          conv_lhs => rw [← List.dropLast_append_getLast hne]
          rw [List.drop_append_of_le_length (by
            simp only [List.length_dropLast]
            omega)]
        have htake : index.dropLast.take maxE = index.take maxE := by
          rw [List.dropLast_eq_take, List.take_take, Nat.min_eq_left (by omega)]
        have hfilter : ∀ (l : List (DeadLetterId × DeadLetterEntry)),
            (removeA l (index.getLast hne)).filter
              (fun cell => !((index.dropLast.drop maxE).contains cell.1)) =
            l.filter (fun cell => !((index.drop maxE).contains cell.1)) := by
          intro l
          rw [removeA, List.filter_filter, hdrop]
          refine List.filter_congr ?_
          intro c _
          by_cases hcl : c.1 = index.getLast hne <;> simp [hcl]
        simp only [dlqEvictLoop, hle, if_neg, if_false, hgl]
        rw [ih index.dropLast (removeA store (index.getLast hne))
          (removeA entries (index.getLast hne)) hlen']
        rw [htake, hfilter store, hfilter entries]

set_option maxHeartbeats 1000000 in
/-- Behavior of one DeadLetterQueue.push on an enabled, initialized queue:
it persists exactly one new record (carrying the given request and error)
at the head of the index, caps the index at maxEntries by evicting from
the oldest end, and deletes the evicted payloads from the store and the
in-memory mirror. -/
theorem dlqPush_spec (cfg : DeadLetterQueueConfig) (now nonce : Nat)
    (st : DlqState) (source operation : String) (request : FetchRequestInput)
    (error : AppError) (context : DeadLetterContext)
    (hen : cfg.enabled = true) (hready : st.storeReady = true) :
    (dlqPush cfg now nonce st source operation request error context).2 =
      some { id := { ts := now, nonce := nonce }, createdAt := now
             source := source, operation := operation, request := request
             error := error, context := context } ∧
    (dlqPush cfg now nonce st source operation request error context).1.pushCount =
      st.pushCount + 1 ∧
    (dlqPush cfg now nonce st source operation request error context).1.index =
      (({ ts := now, nonce := nonce } : DeadLetterId) ::
        (dlqPruneExpired cfg now st).index).take cfg.maxEntries ∧
    (dlqPush cfg now nonce st source operation request error context).1.index.length
      ≤ cfg.maxEntries ∧
    (∀ id ∈ (({ ts := now, nonce := nonce } : DeadLetterId) ::
        (dlqPruneExpired cfg now st).index).drop cfg.maxEntries,
      lookupA (dlqPush cfg now nonce st source operation request error
          context).1.store id = none ∧
      lookupA (dlqPush cfg now nonce st source operation request error
          context).1.entries id = none) ∧
    (1 ≤ cfg.maxEntries →
      (∀ oldId ∈ (dlqPruneExpired cfg now st).index,
        oldId ≠ ({ ts := now, nonce := nonce } : DeadLetterId)) →
      lookupA (dlqPush cfg now nonce st source operation request error
          context).1.store { ts := now, nonce := nonce } =
        some { id := { ts := now, nonce := nonce }, createdAt := now
               source := source, operation := operation, request := request
               error := error, context := context } ∧
      lookupA (dlqPush cfg now nonce st source operation request error
          context).1.entries { ts := now, nonce := nonce } =
        some { id := { ts := now, nonce := nonce }, createdAt := now
               source := source, operation := operation, request := request
               error := error, context := context }) := by
  have hcond : (cfg.enabled = false ∨ st.storeReady = false) = False := by
    simp [hen, hready]
  have hpush : dlqPush cfg now nonce st source operation request error context =
      (let pruned := dlqPruneExpired cfg now st
       let newId : DeadLetterId := { ts := now, nonce := nonce }
       let record : DeadLetterEntry :=
         { id := newId, createdAt := now, source := source, operation := operation
           request := request, error := error, context := context }
       let index := newId :: pruned.index
       let out := dlqEvictLoop cfg.maxEntries index.length index
         (setA pruned.store newId record) (setA pruned.entries newId record)
       ({ pruned with index := out.1, store := out.2.1, entries := out.2.2
                      pushCount := pruned.pushCount + 1 },
         some record)) := by
    simp only [dlqPush, hcond]
    simp
  have hprunecount : (dlqPruneExpired cfg now st).pushCount = st.pushCount := by
    unfold dlqPruneExpired
    split
    · rfl
    · split <;> rfl
  rw [hpush]
  simp only []
  rw [dlqEvictLoop_spec cfg.maxEntries _ _ _ _ (Nat.le_refl _)]
  refine ⟨trivial, by rw [hprunecount], rfl, ?_, ?_, ?_⟩
  · simp [List.length_take]
  · intro id hid
    constructor <;>
      exact lookupA_filter_drop _ _ _ (fun v => by simp [hid])
  · intro hmax hfreshid
    have hd : ∀ id ∈ (({ ts := now, nonce := nonce } : DeadLetterId) ::
        (dlqPruneExpired cfg now st).index).drop cfg.maxEntries,
        id ≠ ({ ts := now, nonce := nonce } : DeadLetterId) := by
      intro id hid
      obtain ⟨m, hm⟩ : ∃ m, cfg.maxEntries = m + 1 := ⟨cfg.maxEntries - 1, by omega⟩
      rw [hm] at hid
      simp only [List.drop_succ_cons] at hid
      exact hfreshid id (List.mem_of_mem_drop hid)
    constructor <;>
    · rw [lookupA_filter_keep _ _ _ (fun v => by
        have hnotmem : ({ ts := now, nonce := nonce } : DeadLetterId) ∉
            (({ ts := now, nonce := nonce } : DeadLetterId) ::
              (dlqPruneExpired cfg now st).index).drop cfg.maxEntries := by
          intro hmem
          exact hd _ hmem rfl
        simp [hnotmem])]
      exact lookupA_setA_self _ _ _

set_option maxHeartbeats 1000000 in
/-- A single attempt never touches the dead-letter queue. -/
theorem runAttempt_dlq (ecfg : ResilientExecutorConfig)
    (extractor : Nat → Except AppError ExtractionResult)
    (requestId source operation : String) (request : FetchRequestInput)
    (attempt now : Nat) (ls : ExecLoopState) :
    (runAttempt ecfg extractor requestId source operation request attempt now
      ls).2.st.dlq = ls.st.dlq := by
  simp only [runAttempt]
  split
  · rfl
  · split
    · rfl
    · split
      · split <;> rfl
      · repeat' split
        all_goals rfl

set_option maxHeartbeats 1000000 in
/-- The retry loop never touches the dead-letter queue. -/
theorem executeAttempts_dlq (ecfg : ResilientExecutorConfig)
    (extractor : Nat → Except AppError ExtractionResult)
    (times jitters : Nat → Nat) (requestId source operation : String)
    (request : FetchRequestInput) :
    ∀ (fuel attempt : Nat) (ls : ExecLoopState),
      (executeAttempts ecfg extractor times jitters requestId source operation
        request attempt fuel ls).2.1.st.dlq = ls.st.dlq := by
  intro fuel
  induction fuel with
  | zero => intro attempt ls; rfl
  | succ fuel ih =>
      intro attempt ls
      simp only [executeAttempts]
      cases hr : (runAttempt ecfg extractor requestId source operation request
          attempt (times attempt) ls).1 with
      | ok result =>
          simp only [hr]
          exact runAttempt_dlq ecfg extractor requestId source operation request
            attempt (times attempt) ls
      | error e =>
          simp only [hr]
          by_cases hdec : (decideRetry ecfg.retryConfig e attempt
          (jitters attempt)).retry = false
          · rw [if_pos hdec]
            exact runAttempt_dlq ecfg extractor requestId source operation request
              attempt (times attempt) ls
          · rw [if_neg hdec, ih]
            exact runAttempt_dlq ecfg extractor requestId source operation request
              attempt (times attempt) ls

set_option maxHeartbeats 2000000 in
/-- On overall failure, the post-execution dead-letter state is exactly one
dlqPush of the final error onto the pre-execution dead-letter state. -/
theorem executeResilient_error_dlq (ecfg : ResilientExecutorConfig)
    (extractor : Nat → Except AppError ExtractionResult)
    (times jitters : Nat → Nat) (requestId : String) (dlqNonce : Nat)
    (st0 : ExecutorState) (request : FetchRequestInput) (e : AppError)
    (herr : (executeResilient ecfg extractor times jitters requestId dlqNonce
      st0 request).1 = Except.error e) :
    ∃ (finalAt : Nat) (ctx : DeadLetterContext),
      (executeResilient ecfg extractor times jitters requestId dlqNonce st0
          request).2.dlq =
        (dlqPush ecfg.dlqCfg finalAt dlqNonce st0.dlq
          (normalizeKey request.source) (normalizeKey request.operation)
          request e ctx).1 := by
  simp only [executeResilient] at herr ⊢
  have hpre := executeAttempts_dlq ecfg extractor times jitters requestId
    (normalizeKey request.source) (normalizeKey request.operation) request
    (max 1 ecfg.retryConfig.maxAttempts) 1
    { st := { circuits := st0.circuits, quarantine := st0.quarantine
              proxyPool := (proxyNext ecfg.proxyCfg (times 0) st0.proxyPool).1
              fingerprints := (fingerprintNext (times 0) st0.fingerprints).1
              checkpoints := checkpointStage (times 0)
                (checkpointStart (times 0) st0.checkpoints requestId
                  (normalizeKey request.source) (normalizeKey request.operation))
                requestId "received" 0
              dlq := st0.dlq, incidents := st0.incidents
              extractorCalls := st0.extractorCalls }
      proxy := (proxyNext ecfg.proxyCfg (times 0) st0.proxyPool).2
      fingerprint := (fingerprintNext (times 0) st0.fingerprints).2 }
  generalize hout : executeAttempts ecfg extractor times jitters requestId
      (normalizeKey request.source) (normalizeKey request.operation) request 1
      (max 1 ecfg.retryConfig.maxAttempts)
      { st := { circuits := st0.circuits, quarantine := st0.quarantine
                proxyPool := (proxyNext ecfg.proxyCfg (times 0) st0.proxyPool).1
                fingerprints := (fingerprintNext (times 0) st0.fingerprints).1
                checkpoints := checkpointStage (times 0)
                  (checkpointStart (times 0) st0.checkpoints requestId
                    (normalizeKey request.source) (normalizeKey request.operation))
                  requestId "received" 0
                dlq := st0.dlq, incidents := st0.incidents
                extractorCalls := st0.extractorCalls }
        proxy := (proxyNext ecfg.proxyCfg (times 0) st0.proxyPool).2
        fingerprint := (fingerprintNext (times 0) st0.fingerprints).2 } = out
    at hpre herr ⊢
  have hpre' : out.2.1.st.dlq = st0.dlq := hpre
  cases hr : out.1 with
  | ok val =>
      simp only [hr] at herr
      simp at herr
  | error e0 =>
      simp only [hr] at herr
      have he : e0 = e := by simpa using herr
      subst he
      simp only [hr]
      rw [hpre']
      refine ⟨times out.2.2,
        { requestId := requestId, proxyId := Option.map (fun p => p.1) out.2.1.proxy
          fingerprintId := out.2.1.fingerprint.id }, ?_⟩
      cases hpd : (dlqPush ecfg.dlqCfg (times out.2.2) dlqNonce st0.dlq
          (normalizeKey request.source) (normalizeKey request.operation) request e0
          { requestId := requestId, proxyId := Option.map (fun p => p.1) out.2.1.proxy
            fingerprintId := out.2.1.fingerprint.id }).2 with
      | some val => simp only [hpd]
      | none => simp only [hpd]

/-- C5: for any request whose retries are exhausted through the resilient
executor with the dead-letter queue enabled and initialized, exactly one
dead-letter record is created (the push counter increases by one and the
final dead-letter state is exactly one dlqPush onto the pre-execution
state), the created record carries the original request and the final
classified error, and after any push the index never exceeds maxEntries,
with the oldest index entries evicted first and their persisted payloads
deleted. -/
theorem c5_dead_letter (ecfg : ResilientExecutorConfig)
    (extractor : Nat → Except AppError ExtractionResult)
    (times jitters : Nat → Nat) (requestId : String) (dlqNonce : Nat)
    (st0 : ExecutorState) (request : FetchRequestInput) (e : AppError)
    (hen : ecfg.dlqCfg.enabled = true) (hready : st0.dlq.storeReady = true)
    (herr : (executeResilient ecfg extractor times jitters requestId dlqNonce
      st0 request).1 = Except.error e) :
    ((executeResilient ecfg extractor times jitters requestId dlqNonce st0
        request).2.dlq.pushCount = st0.dlq.pushCount + 1) ∧
    ((executeResilient ecfg extractor times jitters requestId dlqNonce st0
        request).2.dlq.index.length ≤ ecfg.dlqCfg.maxEntries) ∧
    (∃ (finalAt : Nat) (ctx : DeadLetterContext),
      (executeResilient ecfg extractor times jitters requestId dlqNonce st0
          request).2.dlq =
        (dlqPush ecfg.dlqCfg finalAt dlqNonce st0.dlq
          (normalizeKey request.source) (normalizeKey request.operation)
          request e ctx).1 ∧
      (dlqPush ecfg.dlqCfg finalAt dlqNonce st0.dlq
          (normalizeKey request.source) (normalizeKey request.operation)
          request e ctx).2 =
        some { id := { ts := finalAt, nonce := dlqNonce }, createdAt := finalAt
               source := normalizeKey request.source
               operation := normalizeKey request.operation
               request := request, error := e, context := ctx }) ∧
    (∀ (now' nonce' : Nat) (st : DlqState) (src op : String)
        (req : FetchRequestInput) (err : AppError) (ctx : DeadLetterContext),
      st.storeReady = true →
      (dlqPush ecfg.dlqCfg now' nonce' st src op req err ctx).1.index =
          (({ ts := now', nonce := nonce' } : DeadLetterId) ::
            (dlqPruneExpired ecfg.dlqCfg now' st).index).take
            ecfg.dlqCfg.maxEntries ∧
      (dlqPush ecfg.dlqCfg now' nonce' st src op req err ctx).1.index.length ≤
          ecfg.dlqCfg.maxEntries ∧
      (∀ id ∈ (({ ts := now', nonce := nonce' } : DeadLetterId) ::
          (dlqPruneExpired ecfg.dlqCfg now' st).index).drop
            ecfg.dlqCfg.maxEntries,
        lookupA (dlqPush ecfg.dlqCfg now' nonce' st src op req err ctx).1.store
            id = none ∧
        lookupA (dlqPush ecfg.dlqCfg now' nonce' st src op req err
            ctx).1.entries id = none)) := by
  obtain ⟨finalAt, ctx, hkey⟩ := executeResilient_error_dlq ecfg extractor times
    jitters requestId dlqNonce st0 request e herr
  obtain ⟨hrec, hcount, -, hlen, -, -⟩ := dlqPush_spec ecfg.dlqCfg finalAt
    dlqNonce st0.dlq (normalizeKey request.source)
    (normalizeKey request.operation) request e ctx hen hready
  refine ⟨by rw [hkey, hcount], by rw [hkey]; exact hlen,
    ⟨finalAt, ctx, hkey, hrec⟩, ?_⟩
  intro now' nonce' st src op req err ctx' hready'
  obtain ⟨-, -, h3, h4, h5, -⟩ := dlqPush_spec ecfg.dlqCfg now' nonce' st src op
    req err ctx' hen hready'
  exact ⟨h3, h4, h5⟩

/-- C5 witness: a concrete execution whose extractor always fails with a
non-retryable validation error dead-letters exactly one record. -/
theorem c5_dead_letter_witness :
    (executeResilient execConfigW (fun _ => Except.error validationErr)
        (fun _ => 0) (fun _ => 0) "req-w" 7 emptyExecutorState
        requestW).2.dlq.pushCount = emptyExecutorState.dlq.pushCount + 1 :=
  (c5_dead_letter execConfigW (fun _ => Except.error validationErr)
    (fun _ => 0) (fun _ => 0) "req-w" 7 emptyExecutorState requestW
    validationErr rfl rfl (by rfl)).1

theorem lookupA_filter_first {κ β : Type} [DecidableEq κ] (l : List (κ × β))
    (p : κ × β → Bool) (k : κ) (v : β) (h : lookupA l k = some v)
    (hp : p (k, v) = true) :
    lookupA (l.filter p) k = some v := by
  induction l with
  | nil => simp [lookupA] at h
  | cons cell rest ih =>
      obtain ⟨a, b⟩ := cell
      by_cases hk : a = k
      · subst hk
        rw [lookupA_cons_self] at h
        injection h with h
        subst h
        rw [List.filter_cons_of_pos hp, lookupA_cons_self]
      · rw [lookupA_cons_ne _ _ _ _ hk] at h
        by_cases hpc : p (a, b) = true
        · rw [List.filter_cons_of_pos hpc, lookupA_cons_ne _ _ _ _ hk]
          exact ih h
        · rw [List.filter_cons_of_neg (by simpa using hpc)]
          exact ih h

theorem lookupA_filter_none {κ β : Type} [DecidableEq κ] (l : List (κ × β))
    (p : κ × β → Bool) (k : κ) (h : ∀ cell ∈ l, cell.1 = k → p cell = false) :
    lookupA (l.filter p) k = none := by
  induction l with
  | nil => rfl
  | cons cell rest ih =>
      obtain ⟨a, b⟩ := cell
      by_cases hp : p (a, b) = true
      · rw [List.filter_cons_of_pos hp]
        by_cases hk : a = k
        · exact absurd (h (a, b) (by simp) hk) (by simp [hp])
        · rw [lookupA_cons_ne _ _ _ _ hk]
          exact ih (fun c hm hc => h c (by simp [hm]) hc)
      · rw [List.filter_cons_of_neg (by simpa using hp)]
        exact ih (fun c hm hc => h c (by simp [hm]) hc)

/-- C6 counterexample: with source x quarantined until 1000, a
FetchPipeline.execute call at time 10 that hits a fresh cache entry
succeeds with no quarantine error and without invoking the Extractor, so
it is not the case that every request for a quarantined source fails
while the quarantine is active: only requests that reach the resilient
executor do. -/
theorem c6_counterexample :
    (lookupA stFreshQuarW.exec.quarantine.sourceEntries
        (normalizeKey requestW.source) = some qEntryW) ∧
    (10 < qEntryW.untilMs) ∧
    ((pipelineExecute pipeConfigW execConfigW extractorOkW (fun _ => 10)
        (fun _ => 0) "req-w" 0 (Except.error validationErr) 10 10 stFreshQuarW
        requestW).1.toOption.isSome = true) ∧
    ((pipelineExecute pipeConfigW execConfigW extractorOkW (fun _ => 10)
        (fun _ => 0) "req-w" 0 (Except.error validationErr) 10 10 stFreshQuarW
        requestW).2.exec.extractorCalls = 0) := by
  refine ⟨by decide, by decide, by decide, by decide⟩

set_option maxHeartbeats 1000000 in
/-- A single attempt against a source with an active quarantine entry
fails with the quarantine error before any failure bookkeeping: the entry
survives the lazy prune, the Extractor is not called, and the circuit
registry is untouched. -/
theorem c6_runAttempt_quarantined (ecfg : ResilientExecutorConfig)
    (extractor : Nat → Except AppError ExtractionResult)
    (requestId source operation : String) (request : FetchRequestInput)
    (attempt now : Nat) (ls : ExecLoopState) (entry : QuarantineEntry)
    (hq : lookupA ls.st.quarantine.sourceEntries (normalizeKey source) =
      some entry)
    (hnow : now < entry.untilMs) :
    (runAttempt ecfg extractor requestId source operation request attempt now
        ls).1 = Except.error (sourceQuarantinedError entry.untilMs) ∧
    lookupA (runAttempt ecfg extractor requestId source operation request
        attempt now ls).2.st.quarantine.sourceEntries (normalizeKey source) =
      some entry ∧
    (runAttempt ecfg extractor requestId source operation request attempt now
        ls).2.st.extractorCalls = ls.st.extractorCalls := by
  have hpruned : lookupA (pruneQuarantine now ls.st.quarantine).sourceEntries
      (normalizeKey source) = some entry := by
    simp only [pruneQuarantine]
    exact lookupA_filter_first _ _ _ _ hq (by simp; omega)
  have hassert : assertSourceReady now ls.st.quarantine source =
      (pruneQuarantine now ls.st.quarantine,
        some (sourceQuarantinedError entry.untilMs)) := by
    simp only [assertSourceReady, hpruned]
  simp only [runAttempt, hassert]
  exact ⟨trivial, hpruned, trivial⟩

set_option maxHeartbeats 1000000 in
/-- The retry loop under an always-active source quarantine: every attempt
rejects with the quarantine error, the loop exhausts its retries without
ever calling the Extractor, and the overall result is the quarantine
error. -/
theorem c6_executeAttempts_quarantined (ecfg : ResilientExecutorConfig)
    (extractor : Nat → Except AppError ExtractionResult)
    (times jitters : Nat → Nat) (requestId source operation : String)
    (request : FetchRequestInput) (entry : QuarantineEntry) :
    ∀ (fuel attempt : Nat) (ls : ExecLoopState),
      1 ≤ fuel → 1 ≤ attempt →
      attempt + fuel = max 1 ecfg.retryConfig.maxAttempts + 1 →
      (∀ k, 1 ≤ k → k ≤ max 1 ecfg.retryConfig.maxAttempts →
        times k < entry.untilMs) →
      lookupA ls.st.quarantine.sourceEntries (normalizeKey source) =
        some entry →
      (executeAttempts ecfg extractor times jitters requestId source operation
          request attempt fuel ls).1 =
        Except.error (sourceQuarantinedError entry.untilMs) ∧
      (executeAttempts ecfg extractor times jitters requestId source operation
          request attempt fuel ls).2.1.st.extractorCalls =
        ls.st.extractorCalls := by
  intro fuel
  induction fuel with
  | zero => intro attempt ls hf ha hsum hactive hq; omega
  | succ fuel ih =>
      intro attempt ls hf ha hsum hactive hq
      obtain ⟨h1, h2, h3⟩ := c6_runAttempt_quarantined ecfg extractor requestId
        source operation request attempt (times attempt) ls entry hq
        (hactive attempt ha (by omega))
      simp only [executeAttempts, h1]
      by_cases hlt : attempt < max 1 ecfg.retryConfig.maxAttempts
      · have hret : (decideRetry ecfg.retryConfig
            (sourceQuarantinedError entry.untilMs) attempt
            (jitters attempt)).retry = true := by
          simp [decideRetry, classifyRetryCategory, sourceQuarantinedError,
            retryableCategory, hlt]
        rw [if_neg (by simp [hret])]
        have hrec := ih (attempt + 1)
          { st := { (runAttempt ecfg extractor requestId source operation
              request attempt (times attempt) ls).2.st with
                checkpoints := checkpointStage (times attempt)
                  (runAttempt ecfg extractor requestId source operation request
                    attempt (times attempt) ls).2.st.checkpoints requestId
                  "retry_scheduled" attempt }
            proxy := (runAttempt ecfg extractor requestId source operation
              request attempt (times attempt) ls).2.proxy
            fingerprint := (runAttempt ecfg extractor requestId source
              operation request attempt (times attempt) ls).2.fingerprint }
          (by omega) (by omega) (by omega) hactive (by simpa using h2)
        refine ⟨?_, ?_⟩
        · exact hrec.1
        · exact hrec.2.trans h3
      · have hret : (decideRetry ecfg.retryConfig
            (sourceQuarantinedError entry.untilMs) attempt
            (jitters attempt)).retry = false := by
          simp [decideRetry, classifyRetryCategory, sourceQuarantinedError,
            retryableCategory, hlt]
        rw [if_pos hret]
        exact ⟨rfl, h3⟩

set_option maxHeartbeats 2000000 in
/-- C6: while a source quarantine entry is active at every attempt time,
a request for that source that reaches the resilient executor fails with
the quarantine error and the Extractor is never invoked; and once the
entry's until timestamp has passed, admission control lazily prunes the
entry and admits execution again.  (Requests served from the response
cache or coalesced into an in-flight execution never reach the executor;
see the counterexample.) -/
theorem c6_quarantine_admission (ecfg : ResilientExecutorConfig)
    (extractor : Nat → Except AppError ExtractionResult)
    (times jitters : Nat → Nat) (requestId : String) (dlqNonce : Nat)
    (st0 : ExecutorState) (request : FetchRequestInput)
    (entry : QuarantineEntry)
    (hq : lookupA st0.quarantine.sourceEntries
      (normalizeKey (normalizeKey request.source)) = some entry)
    (hactive : ∀ k, 1 ≤ k → k ≤ max 1 ecfg.retryConfig.maxAttempts →
      times k < entry.untilMs) :
    (executeResilient ecfg extractor times jitters requestId dlqNonce st0
        request).1 = Except.error (sourceQuarantinedError entry.untilMs) ∧
    (executeResilient ecfg extractor times jitters requestId dlqNonce st0
        request).2.extractorCalls = st0.extractorCalls ∧
    (∀ (now : Nat) (q : QuarantineState) (src : String),
      (∀ cell ∈ q.sourceEntries, cell.1 = normalizeKey src →
        cell.2.untilMs ≤ now) →
      (assertSourceReady now q src).2 = none ∧
      lookupA (assertSourceReady now q src).1.sourceEntries
        (normalizeKey src) = none) := by
  have hread : ∀ (now : Nat) (q : QuarantineState) (src : String),
      (∀ cell ∈ q.sourceEntries, cell.1 = normalizeKey src →
        cell.2.untilMs ≤ now) →
      (assertSourceReady now q src).2 = none ∧
      lookupA (assertSourceReady now q src).1.sourceEntries
        (normalizeKey src) = none := by
    intro now q src hall
    have hnone : lookupA (pruneQuarantine now q).sourceEntries
        (normalizeKey src) = none := by
      simp only [pruneQuarantine]
      exact lookupA_filter_none _ _ _
        (fun cell hmem hkey => by simp [hall cell hmem hkey])
    have hassert2 : assertSourceReady now q src = (pruneQuarantine now q, none) := by
      simp only [assertSourceReady, hnone]
    rw [hassert2]
    exact ⟨rfl, hnone⟩
  obtain ⟨h1, h2⟩ := c6_executeAttempts_quarantined ecfg extractor times
    jitters requestId (normalizeKey request.source)
    (normalizeKey request.operation) request entry
    (max 1 ecfg.retryConfig.maxAttempts) 1
    { st := { circuits := st0.circuits, quarantine := st0.quarantine
              proxyPool := (proxyNext ecfg.proxyCfg (times 0) st0.proxyPool).1
              fingerprints := (fingerprintNext (times 0) st0.fingerprints).1
              checkpoints := checkpointStage (times 0)
                (checkpointStart (times 0) st0.checkpoints requestId
                  (normalizeKey request.source) (normalizeKey request.operation))
                requestId "received" 0
              dlq := st0.dlq, incidents := st0.incidents
              extractorCalls := st0.extractorCalls }
      proxy := (proxyNext ecfg.proxyCfg (times 0) st0.proxyPool).2
      fingerprint := (fingerprintNext (times 0) st0.fingerprints).2 }
    (le_max_left 1 _) (Nat.le_refl 1) (Nat.add_comm 1 _) hactive hq
  simp only [executeResilient]
  generalize hout : executeAttempts ecfg extractor times jitters requestId
      (normalizeKey request.source) (normalizeKey request.operation) request 1
      (max 1 ecfg.retryConfig.maxAttempts)
      { st := { circuits := st0.circuits, quarantine := st0.quarantine
                proxyPool := (proxyNext ecfg.proxyCfg (times 0) st0.proxyPool).1
                fingerprints := (fingerprintNext (times 0) st0.fingerprints).1
                checkpoints := checkpointStage (times 0)
                  (checkpointStart (times 0) st0.checkpoints requestId
                    (normalizeKey request.source) (normalizeKey request.operation))
                  requestId "received" 0
                dlq := st0.dlq, incidents := st0.incidents
                extractorCalls := st0.extractorCalls }
        proxy := (proxyNext ecfg.proxyCfg (times 0) st0.proxyPool).2
        fingerprint := (fingerprintNext (times 0) st0.fingerprints).2 } = out
    at h1 h2 ⊢
  simp only [h1]
  refine ⟨trivial, ?_, hread⟩
  cases hpd : (dlqPush ecfg.dlqCfg (times out.2.2) dlqNonce out.2.1.st.dlq
      (normalizeKey request.source) (normalizeKey request.operation) request
      (sourceQuarantinedError entry.untilMs)
      { requestId := requestId
        proxyId := Option.map (fun p => p.1) out.2.1.proxy
        fingerprintId := out.2.1.fingerprint.id }).2 with
  | some val => simp only [hpd]; exact h2
  | none => simp only [hpd]; exact h2

/-- C6 witness: a concrete executor run against a source quarantined until
time 1000, with every attempt at time 10, fails with the quarantine error. -/
theorem c6_quarantine_admission_witness :
    (executeResilient execConfigW extractorOkW (fun _ => 10) (fun _ => 0)
        "req-w" 0 stQuarantinedW requestW).1 =
      Except.error (sourceQuarantinedError qEntryW.untilMs) :=
  (c6_quarantine_admission execConfigW extractorOkW (fun _ => 10) (fun _ => 0)
    "req-w" 0 stQuarantinedW requestW qEntryW (by decide)
    (fun k hk1 hk2 => (by decide : (10 : Nat) < qEntryW.untilMs))).1

end ShadowAPI
